import Mathlib

/-!
# hub-of-hubs-status-sync: the db-syncers

A shallow embedding of `pkg/dbsyncers` and a verification of its merge
functions and of its reconciliation against the resource store.

* Database queries are inputs: a query result is `Except DBError (List (Except DBError row))`,
  the outer error being the one of `Query`, the inner ones those of `rows.Scan`.
* The Kubernetes client is a `Store`: the published objects, the outcomes injected into the
  coming calls and the trace of the calls issued so far.
* Go `int32` and `int` are `Int` with explicit wrap-around (`wrapInt32`, `wrapInt`).
-/

set_option autoImplicit false
set_option maxRecDepth 8000

deriving instance DecidableEq for Except

namespace DBSyncers

/-! ## Machine integers -/

/-- Two's complement wrap-around of an integer to `bits` bits. -/
def wrapSigned (bits : Nat) (x : Int) : Int :=
  (x + 2 ^ (bits - 1)) % 2 ^ bits - 2 ^ (bits - 1)

/-- Go `int32` arithmetic result. -/
def wrapInt32 (x : Int) : Int := wrapSigned 32 x

/-- Size in bits of the Go `int` type (`strconv.IntSize`) on a 64-bit platform. -/
def intSize : Nat := 64

/-- Go `int` arithmetic result. -/
def wrapInt (x : Int) : Int := wrapSigned intSize x

/-- Smallest value of the Go `int` type. -/
def minInt : Int := -(2 ^ (intSize - 1))

/-- Largest value of the Go `int` type. -/
def maxInt : Int := 2 ^ (intSize - 1) - 1

/-! ## Errors -/

/-- An error reported by the database driver (`Query` or `rows.Scan`). -/
abbrev DBError := String

/-- An error reported by the Kubernetes API. -/
inductive APIError where
  | notFound
  | alreadyExists
  | conflict
  | other (reason : String)
  deriving DecidableEq, Repr

/-- The test `errors.IsNotFound`. -/
def APIError.isNotFound : APIError → Bool
  | .notFound => true
  | _ => false

/-- The errors the syncers return: each wraps (`%w`) the error of the call that failed. -/
inductive SyncError where
  | query (cause : DBError)
  | scan (cause : DBError)
  | get (cause : APIError)
  | create (cause : APIError)
  | patch (cause : APIError)
  deriving DecidableEq, Repr

/-! ## Kubernetes objects -/

/-- The type `metav1.OwnerReference`. -/
structure OwnerReference where
  APIVersion : String
  Kind : String
  Name : String
  UID : String
  Controller : Option Bool
  BlockOwnerDeletion : Option Bool
  deriving DecidableEq, Repr

/-- The fields of `metav1.ObjectMeta` the syncers read or write. -/
structure ObjectMeta where
  Name : String := ""
  Namespace : String := ""
  UID : String := ""
  ResourceVersion : String := ""
  Labels : List (String × String) := []
  OwnerReferences : List OwnerReference := []
  deriving DecidableEq, Repr

/-- Indexing a Go `map[string]string`: the zero value `""` for a missing key. -/
def mapIndex (m : List (String × String)) (key : String) : String :=
  match m.lookup key with
  | some v => v
  | none => ""

/-- The type `client.ObjectKey`. -/
structure ObjectKey where
  Name : String
  Namespace : String
  deriving DecidableEq, Repr

/-! ### Policy -/

/-- The type `policiesv1.ComplianceState`, a string type. -/
abbrev ComplianceState := String

/-- The constant `policiesv1.Compliant`. -/
def Compliant : ComplianceState := "Compliant"

/-- The constant `policiesv1.NonCompliant`. -/
def NonCompliant : ComplianceState := "NonCompliant"

/-- The type `policiesv1.CompliancePerClusterStatus`. -/
structure CompliancePerClusterStatus where
  ComplianceState : ComplianceState := ""
  ClusterName : String := ""
  ClusterNamespace : String := ""
  deriving DecidableEq, Repr

/-- The type `policiesv1.PolicyStatus`; `Placement` stands for the fields the syncer never
touches. -/
structure PolicyStatus where
  Placement : List String := []
  Status : List CompliancePerClusterStatus := []
  ComplianceState : ComplianceState := ""
  deriving DecidableEq, Repr

/-- The type `policiesv1.Policy`; `Spec` stands for the whole specification. -/
structure Policy where
  ObjectMeta : ObjectMeta := {}
  Spec : String := ""
  Status : PolicyStatus := {}
  deriving DecidableEq, Repr

/-! ### Placement and placement decision -/

/-- The type `clustersv1beta1.PlacementStatus`; `NumberOfSelectedClusters` is an `int32`. -/
structure PlacementStatus where
  NumberOfSelectedClusters : Int := 0
  Conditions : List String := []
  deriving DecidableEq, Repr

/-- The type `clustersv1beta1.Placement`. -/
structure Placement where
  ObjectMeta : ObjectMeta := {}
  Spec : String := ""
  Status : PlacementStatus := {}
  deriving DecidableEq, Repr

/-- The type `clustersv1beta1.ClusterDecision`. -/
structure ClusterDecision where
  ClusterName : String
  Reason : String
  deriving DecidableEq, Repr

/-- The type `clustersv1beta1.PlacementDecisionStatus`. -/
structure PlacementDecisionStatus where
  Decisions : List ClusterDecision := []
  deriving DecidableEq, Repr

/-- The type `clustersv1beta1.PlacementDecision`. -/
structure PlacementDecision where
  ObjectMeta : ObjectMeta := {}
  Status : PlacementDecisionStatus := {}
  deriving DecidableEq, Repr

/-- The constant `clustersv1beta1.PlacementLabel`. -/
def PlacementLabel : String := "cluster.open-cluster-management.io/placement"

/-! ### Subscription report -/

/-- The type `appsv1alpha1.SubscriptionReportSummary`: five counters, kept as strings. -/
structure SubscriptionReportSummary where
  Deployed : String := ""
  InProgress : String := ""
  Failed : String := ""
  PropagationFailed : String := ""
  Clusters : String := ""
  deriving DecidableEq, Repr

/-- The type `appsv1alpha1.SubscriptionReportResult`. -/
structure SubscriptionReportResult where
  Source : String
  Timestamp : Int
  Result : String
  deriving DecidableEq, Repr

/-- The type `corev1.ObjectReference`, as far as a report lists it. -/
structure ObjectReference where
  Kind : String
  Namespace : String
  Name : String
  APIVersion : String
  deriving DecidableEq, Repr

/-- The type `appsv1alpha1.SubscriptionReport`. -/
structure SubscriptionReport where
  ObjectMeta : ObjectMeta := {}
  ReportType : String := ""
  Summary : SubscriptionReportSummary := {}
  Results : List SubscriptionReportResult := []
  Resources : List ObjectReference := []
  deriving DecidableEq, Repr

/-- The constant `appsv1.AnnotationHosting`. -/
def AnnotationHosting : String := "apps.open-cluster-management.io/hosting-subscription"

/-! ## Policy compliance merge (`policy_syncer.go`) -/

/-- The constant `dbEnumCompliant`. -/
def dbEnumCompliant : String := "compliant"

/-- The constant `dbEnumNonCompliant`. -/
def dbEnumNonCompliant : String := "non_compliant"

/-- The map `dbEnumToPolicyComplianceStateMap` of `handlePolicy`. -/
def dbEnumToPolicyComplianceStateMap : List (String × ComplianceState) :=
  [(dbEnumCompliant, Compliant), (dbEnumNonCompliant, NonCompliant)]

/-- One row of `SELECT cluster_name, leaf_hub_name, compliance FROM status.compliance`. -/
structure ComplianceRow where
  clusterName : String
  leafHubName : String
  complianceInDB : String
  deriving DecidableEq, Repr

/-- The value `compliance` of one loop iteration of `handlePolicy`: the mapped state, or the
initial `""` when the map has no entry. -/
def mappedCompliance (complianceInDB : String) : ComplianceState :=
  match dbEnumToPolicyComplianceStateMap.lookup complianceInDB with
  | some mapped => mapped
  | none => ""

/-- The loop `for rows.Next()` of `handlePolicy`, from the state
`(compliancePerClusterStatuses, hasNonCompliantClusters)`; a row that fails to scan is
logged and skipped (`continue`). -/
def handlePolicyRows : List (Except DBError ComplianceRow) →
    List CompliancePerClusterStatus → Bool → List CompliancePerClusterStatus × Bool
  | [], compliancePerClusterStatuses, hasNonCompliantClusters =>
      (compliancePerClusterStatuses, hasNonCompliantClusters)
  | .error _ :: rest, compliancePerClusterStatuses, hasNonCompliantClusters =>
      handlePolicyRows rest compliancePerClusterStatuses hasNonCompliantClusters
  | .ok row :: rest, compliancePerClusterStatuses, hasNonCompliantClusters =>
      let compliance := mappedCompliance row.complianceInDB
      let hasNonCompliantClusters :=
        if compliance = NonCompliant then true else hasNonCompliantClusters
      handlePolicyRows rest
        (compliancePerClusterStatuses ++
          [{ ComplianceState := compliance
             ClusterName := row.clusterName
             ClusterNamespace := row.leafHubName }])
        hasNonCompliantClusters

/-- The policy `handlePolicy` submits to the status patch: the instance with
`Status.Status` and `Status.ComplianceState` overwritten from the rows. -/
def handlePolicyInstance (policy : Policy) (rows : List (Except DBError ComplianceRow)) :
    Policy :=
  let merged := handlePolicyRows rows [] false
  let compliancePerClusterStatuses := merged.1
  let hasNonCompliantClusters := merged.2
  let status := { policy.Status with
    Status := compliancePerClusterStatuses, ComplianceState := "" }
  let status :=
    if hasNonCompliantClusters then { status with ComplianceState := NonCompliant }
    else if compliancePerClusterStatuses.length > 0 then
      { status with ComplianceState := Compliant }
    else status
  { policy with Status := status }

/-! ## Placement merge (`placement_syncer.go`) -/

/-- The loop `for rows.Next()` of `getPlacementStatus`, from the state
`(placementStatus, statusEntriesFound)`; a row that fails to scan ends the function with an
error. -/
def getPlacementStatusRows : List (Except DBError Placement) → PlacementStatus → Bool →
    Except SyncError (PlacementStatus × Bool)
  | [], placementStatus, statusEntriesFound => .ok (placementStatus, statusEntriesFound)
  | .error err :: _, _, _ => .error (.scan err)
  | .ok leafHubPlacement :: rest, placementStatus, statusEntriesFound =>
      let statusEntriesFound := if !statusEntriesFound then true else statusEntriesFound
      getPlacementStatusRows rest
        { placementStatus with
          NumberOfSelectedClusters := wrapInt32
            (placementStatus.NumberOfSelectedClusters +
              leafHubPlacement.Status.NumberOfSelectedClusters) }
        statusEntriesFound

/-- The function `getPlacementStatus`, on the result of its query. -/
def getPlacementStatus (query : Except DBError (List (Except DBError Placement))) :
    Except SyncError (PlacementStatus × Bool) :=
  match query with
  | .error err => .error (.query err)
  | .ok rows => getPlacementStatusRows rows {} false

/-! ## Placement-decision merge (`placementdecision_syncer.go`) -/

/-- The loop `for rows.Next()` of `getAggregatedPlacementDecisions`, from the state
`aggregatedPlacementDecision` (`none` is the nil pointer). -/
def getAggregatedPlacementDecisionsRows (placementDecisionName : String) :
    List (Except DBError PlacementDecision) → Option PlacementDecision →
    Except SyncError (Option PlacementDecision)
  | [], aggregatedPlacementDecision => .ok aggregatedPlacementDecision
  | .error err :: _, _ => .error (.scan err)
  | .ok leafHubPlacementDecision :: rest, aggregatedPlacementDecision =>
      if mapIndex leafHubPlacementDecision.ObjectMeta.Labels PlacementLabel
          ≠ placementDecisionName then
        getAggregatedPlacementDecisionsRows placementDecisionName rest
          aggregatedPlacementDecision
      else
        match aggregatedPlacementDecision with
        | none =>
            getAggregatedPlacementDecisionsRows placementDecisionName rest
              (some { leafHubPlacementDecision with
                ObjectMeta := { leafHubPlacementDecision.ObjectMeta with
                  OwnerReferences := [] } })
        | some aggregated =>
            getAggregatedPlacementDecisionsRows placementDecisionName rest
              (some { aggregated with
                Status := { aggregated.Status with
                  Decisions := aggregated.Status.Decisions ++
                    leafHubPlacementDecision.Status.Decisions } })

/-- The function `getAggregatedPlacementDecisions`, on the result of its query. -/
def getAggregatedPlacementDecisions
    (query : Except DBError (List (Except DBError PlacementDecision)))
    (placementDecisionName : String) : Except SyncError (Option PlacementDecision) :=
  match query with
  | .error err => .error (.query err)
  | .ok rows => getAggregatedPlacementDecisionsRows placementDecisionName rows none

/-! ## Decimal conversions (`strconv`) -/

/-- The decimal digits of `n`, least significant first; `fuel` bounds their number. -/
def decimalDigits : Nat → Nat → List Nat
  | 0, _ => []
  | fuel + 1, n => if n < 10 then [n] else n % 10 :: decimalDigits fuel (n / 10)

/-- The decimal rendering of a natural number, most significant digit first. -/
def formatUint (n : Nat) : List Char :=
  (decimalDigits (n + 1) n).reverse.map Nat.digitChar

/-- The function `strconv.Itoa`. -/
def Itoa (i : Int) : String :=
  if i < 0 then String.mk ('-' :: formatUint i.natAbs) else String.mk (formatUint i.natAbs)

/-- The value of a decimal digit, `none` for any other character. -/
def digitValue (c : Char) : Option Nat :=
  if '0' ≤ c ∧ c ≤ '9' then some (c.toNat - '0'.toNat) else none

/-- The digit loop of `strconv.ParseUint` in base 10, from the accumulated value `n`. -/
def parseDigits : List Char → Nat → Option Nat
  | [], n => some n
  | c :: cs, n =>
      match digitValue c with
      | none => none
      | some d => parseDigits cs (n * 10 + d)

/-- The function `strconv.Atoi`; `none` is any error (syntax or range). -/
def Atoi (s : String) : Option Int :=
  match s.data with
  | [] => none
  | c :: cs =>
      let neg : Bool := c = '-'
      let digits := if c = '-' ∨ c = '+' then cs else c :: cs
      match digits with
      | [] => none
      | _ =>
          match parseDigits digits 0 with
          | none => none
          | some un =>
              if neg = false ∧ (un : Int) > maxInt then none
              else if neg = true ∧ -(un : Int) < minInt then none
              else some (if neg then -(un : Int) else (un : Int))

/-! ## Subscription-report merge (`subscription_report_syncer.go`) -/

/-- The function `stringToInt`. -/
def stringToInt (numberString : String) : Int :=
  match Atoi numberString with
  | some number => number
  | none => 0

/-- The function `updateSubscriptionReportSummary`; the sums are Go `int` sums. -/
def updateSubscriptionReportSummary
    (aggregatedSummary reportSummary : SubscriptionReportSummary) :
    SubscriptionReportSummary :=
  { Deployed := Itoa (wrapInt
      (stringToInt aggregatedSummary.Deployed + stringToInt reportSummary.Deployed))
    InProgress := Itoa (wrapInt
      (stringToInt aggregatedSummary.InProgress + stringToInt reportSummary.InProgress))
    Failed := Itoa (wrapInt
      (stringToInt aggregatedSummary.Failed + stringToInt reportSummary.Failed))
    PropagationFailed := Itoa (wrapInt
      (stringToInt aggregatedSummary.PropagationFailed +
        stringToInt reportSummary.PropagationFailed))
    Clusters := Itoa (wrapInt
      (stringToInt aggregatedSummary.Clusters + stringToInt reportSummary.Clusters)) }

/-- One iteration of the loop of `getSubscriptionReport` on a scanned row. -/
def getSubscriptionReportStep (subscriptionReport leafHubSubscriptionReport : SubscriptionReport) :
    SubscriptionReport :=
  let subscriptionReport := { subscriptionReport with
    Summary := updateSubscriptionReportSummary subscriptionReport.Summary
      leafHubSubscriptionReport.Summary }
  let subscriptionReport :=
    if subscriptionReport.Resources.length = 0 then
      { subscriptionReport with
        Resources := leafHubSubscriptionReport.Resources
        ReportType := leafHubSubscriptionReport.ReportType }
    else subscriptionReport
  { subscriptionReport with
    Results := subscriptionReport.Results ++ leafHubSubscriptionReport.Results }

/-- The loop `for rows.Next()` of `getSubscriptionReport`, from the state
`subscriptionReport`; a row that fails to scan ends the function with an error. -/
def getSubscriptionReportRows : List (Except DBError SubscriptionReport) →
    SubscriptionReport → Except SyncError SubscriptionReport
  | [], subscriptionReport => .ok subscriptionReport
  | .error err :: _, _ => .error (.scan err)
  | .ok leafHubSubscriptionReport :: rest, subscriptionReport =>
      getSubscriptionReportRows rest
        (getSubscriptionReportStep subscriptionReport leafHubSubscriptionReport)

/-- The function `getSubscriptionReport`, on the result of its query. -/
def getSubscriptionReport (query : Except DBError (List (Except DBError SubscriptionReport))) :
    Except SyncError SubscriptionReport :=
  match query with
  | .error err => .error (.query err)
  | .ok rows => getSubscriptionReportRows rows {}

/-! ## The resource store (the Kubernetes client) -/

/-- What the syncers need of a `client.Object` type. -/
class Resource (α : Type) where
  /-- The metadata of the object. -/
  objectMeta : α → ObjectMeta
  /-- The method `SetResourceVersion`. -/
  setResourceVersion : α → String → α
  /-- The stored object after the API server applied, to its status, the merge patch
  `client.MergeFrom(original)` of `modified`: every status field in which `modified` differs
  from `original` takes the value it has in `modified`. -/
  applyStatusPatch : (original modified stored : α) → α

/-- The key under which the store holds an object. -/
def objectKey {α : Type} [Resource α] (obj : α) : ObjectKey :=
  { Name := (Resource.objectMeta obj).Name, Namespace := (Resource.objectMeta obj).Namespace }

/-- The methods of `client.Client` the syncers call. -/
inductive Verb where
  | get
  | create
  | patch
  | delete
  deriving DecidableEq, Repr

/-- One call issued to the store: the object passed to it (`Create`, `Patch`), the snapshot
of `client.MergeFrom` (`Patch`), and the error it returned (`none` for success). -/
structure Call (α : Type) where
  verb : Verb
  key : ObjectKey
  submitted : Option α
  snapshot : Option α
  failure : Option APIError
  deriving DecidableEq, Repr

/-- The resource store as explicit state: the published objects, the outcome injected into
each coming call (`some err` makes the call fail with `err` and change nothing, `none` or an
exhausted list lets the call run on the objects), and the trace of the calls issued. -/
structure Store (α : Type) where
  objects : List α := []
  faults : List (Option APIError) := []
  calls : List (Call α) := []

namespace Store

variable {α : Type} [Resource α]

/-- The published object of a key, if any. -/
def find (store : Store α) (key : ObjectKey) : Option α :=
  store.objects.find? (fun obj => decide (objectKey obj = key))

/-- The outcome injected into the next call, and the outcomes left. -/
def nextFault (store : Store α) : Option APIError × List (Option APIError) :=
  match store.faults with
  | [] => (none, [])
  | fault :: faults => (fault, faults)

/-- The store after a call returned: the call is appended to the trace. -/
def record (store : Store α) (faults : List (Option APIError)) (objects : List α)
    (call : Call α) : Store α :=
  { objects := objects, faults := faults, calls := store.calls ++ [call] }

/-- The call `client.Get`: the published object, not-found when there is none. -/
def Get (store : Store α) (key : ObjectKey) : Except APIError α × Store α :=
  match store.nextFault with
  | (some err, faults) =>
      (.error err, store.record faults store.objects ⟨.get, key, none, none, some err⟩)
  | (none, faults) =>
      match store.find key with
      | none =>
          (.error .notFound,
            store.record faults store.objects ⟨.get, key, none, none, some .notFound⟩)
      | some obj => (.ok obj, store.record faults store.objects ⟨.get, key, none, none, none⟩)

/-- The call `client.Create`: already-exists when the key is taken. -/
def Create (store : Store α) (obj : α) : Option APIError × Store α :=
  match store.nextFault with
  | (some err, faults) =>
      (some err,
        store.record faults store.objects ⟨.create, objectKey obj, some obj, none, some err⟩)
  | (none, faults) =>
      match store.find (objectKey obj) with
      | some _ =>
          (some .alreadyExists,
            store.record faults store.objects
              ⟨.create, objectKey obj, some obj, none, some .alreadyExists⟩)
      | none =>
          (none,
            store.record faults (store.objects ++ [obj])
              ⟨.create, objectKey obj, some obj, none, none⟩)

/-- The call `client.Status().Patch(modified, client.MergeFrom(original))`: not-found when no
object is published under the key of `modified`. -/
def Patch (store : Store α) (modified original : α) : Option APIError × Store α :=
  match store.nextFault with
  | (some err, faults) =>
      (some err,
        store.record faults store.objects
          ⟨.patch, objectKey modified, some modified, some original, some err⟩)
  | (none, faults) =>
      match store.find (objectKey modified) with
      | none =>
          (some .notFound,
            store.record faults store.objects
              ⟨.patch, objectKey modified, some modified, some original, some .notFound⟩)
      | some _ =>
          (none,
            store.record faults
              (store.objects.map (fun stored =>
                if objectKey stored = objectKey modified then
                  Resource.applyStatusPatch original modified stored
                else stored))
              ⟨.patch, objectKey modified, some modified, some original, none⟩)

/-- The calls issued between the store `before` and the store `after`. -/
def callsSince (before after : Store α) : List (Call α) :=
  after.calls.drop before.calls.length

/-- The objects submitted to the status patch between `before` and `after`. -/
def patchedSince (before after : Store α) : List α :=
  (callsSince before after).filterMap
    (fun call => if call.verb = .patch then call.submitted else none)

end Store

/-- A field of the stored object after a merge patch: the patch carries the field only when
`modified` differs from `original` in it. -/
def patchedField {β : Type} [DecidableEq β] (original modified stored : β) : β :=
  if modified = original then stored else modified

instance : Resource Policy where
  objectMeta policy := policy.ObjectMeta
  setResourceVersion policy version :=
    { policy with ObjectMeta := { policy.ObjectMeta with ResourceVersion := version } }
  applyStatusPatch original modified stored :=
    { stored with Status :=
      { Placement := patchedField original.Status.Placement modified.Status.Placement
          stored.Status.Placement
        Status := patchedField original.Status.Status modified.Status.Status
          stored.Status.Status
        ComplianceState := patchedField original.Status.ComplianceState
          modified.Status.ComplianceState stored.Status.ComplianceState } }

instance : Resource Placement where
  objectMeta placement := placement.ObjectMeta
  setResourceVersion placement version :=
    { placement with ObjectMeta := { placement.ObjectMeta with ResourceVersion := version } }
  applyStatusPatch original modified stored :=
    { stored with Status :=
      { NumberOfSelectedClusters := patchedField original.Status.NumberOfSelectedClusters
          modified.Status.NumberOfSelectedClusters stored.Status.NumberOfSelectedClusters
        Conditions := patchedField original.Status.Conditions modified.Status.Conditions
          stored.Status.Conditions } }

instance : Resource PlacementDecision where
  objectMeta decision := decision.ObjectMeta
  setResourceVersion decision version :=
    { decision with ObjectMeta := { decision.ObjectMeta with ResourceVersion := version } }
  applyStatusPatch original modified stored :=
    { stored with Status :=
      { Decisions := patchedField original.Status.Decisions modified.Status.Decisions
          stored.Status.Decisions } }

/-- A subscription report keeps its report type, summary, results and resources at the top
level: these are the fields its status patch carries. -/
instance : Resource SubscriptionReport where
  objectMeta report := report.ObjectMeta
  setResourceVersion report version :=
    { report with ObjectMeta := { report.ObjectMeta with ResourceVersion := version } }
  applyStatusPatch original modified stored :=
    { stored with
      ReportType := patchedField original.ReportType modified.ReportType stored.ReportType
      Summary :=
        { Deployed := patchedField original.Summary.Deployed modified.Summary.Deployed
            stored.Summary.Deployed
          InProgress := patchedField original.Summary.InProgress modified.Summary.InProgress
            stored.Summary.InProgress
          Failed := patchedField original.Summary.Failed modified.Summary.Failed
            stored.Summary.Failed
          PropagationFailed := patchedField original.Summary.PropagationFailed
            modified.Summary.PropagationFailed stored.Summary.PropagationFailed
          Clusters := patchedField original.Summary.Clusters modified.Summary.Clusters
            stored.Summary.Clusters }
      Results := patchedField original.Results modified.Results stored.Results
      Resources := patchedField original.Resources modified.Resources stored.Resources }

/-! ## Reconciliation against the store -/

/-- The function `createK8sResource` (`helpers.go`); `none` is the nil resource. -/
def createK8sResource {α : Type} [Resource α] (k8sClient : Store α) (resource : Option α) :
    Option SyncError × Store α :=
  match resource with
  | none => (none, k8sClient)
  | some resource =>
      let resource := Resource.setResourceVersion resource ""
      match k8sClient.Create resource with
      | (some err, k8sClient) => (some (.create err), k8sClient)
      | (none, k8sClient) => (none, k8sClient)

/-- The function `updatePlacementStatus`. -/
def updatePlacementStatus (k8sClient : Store Placement)
    (placementName placementNamespace : String) (placementStatus : PlacementStatus) :
    Option SyncError × Store Placement :=
  match k8sClient.Get { Name := placementName, Namespace := placementNamespace } with
  | (.error err, k8sClient) =>
      if err.isNotFound then (none, k8sClient) else (some (.get err), k8sClient)
  | (.ok deployedPlacement, k8sClient) =>
      let originalPlacement := deployedPlacement
      let deployedPlacement := { deployedPlacement with
        Status := { deployedPlacement.Status with
          NumberOfSelectedClusters := placementStatus.NumberOfSelectedClusters } }
      match k8sClient.Patch deployedPlacement originalPlacement with
      | (some err, k8sClient) =>
          if !err.isNotFound then (some (.patch err), k8sClient) else (none, k8sClient)
      | (none, k8sClient) => (none, k8sClient)

/-- The function `updatePlacementDecision`. -/
def updatePlacementDecision (k8sClient : Store PlacementDecision)
    (aggregatedPlacementDecision : PlacementDecision) :
    Option SyncError × Store PlacementDecision :=
  match k8sClient.Get { Name := aggregatedPlacementDecision.ObjectMeta.Name,
                        Namespace := aggregatedPlacementDecision.ObjectMeta.Namespace } with
  | (.error err, k8sClient) =>
      if err.isNotFound then
        match createK8sResource k8sClient (some aggregatedPlacementDecision) with
        | (some err, k8sClient) => (some err, k8sClient)
        | (none, k8sClient) => (none, k8sClient)
      else (some (.get err), k8sClient)
  | (.ok deployedPlacementDecision, k8sClient) =>
      let originalPlacementDecision := deployedPlacementDecision
      let deployedPlacementDecision := { deployedPlacementDecision with
        Status := { deployedPlacementDecision.Status with
          Decisions := aggregatedPlacementDecision.Status.Decisions } }
      match k8sClient.Patch deployedPlacementDecision originalPlacementDecision with
      | (some err, k8sClient) =>
          if !err.isNotFound then (some (.patch err), k8sClient) else (none, k8sClient)
      | (none, k8sClient) => (none, k8sClient)

/-- The last statement of `updateSubscriptionReport`: the status patch and its error test. -/
def patchSubscriptionReport (k8sClient : Store SubscriptionReport)
    (subscriptionReport originalSubscriptionReport : SubscriptionReport) :
    Option SyncError × Store SubscriptionReport :=
  match k8sClient.Patch subscriptionReport originalSubscriptionReport with
  | (some err, k8sClient) =>
      if !err.isNotFound then (some (.patch err), k8sClient) else (none, k8sClient)
  | (none, k8sClient) => (none, k8sClient)

/-- The function `updateSubscriptionReport`. A failed `Get` leaves
`originalSubscriptionReport` the empty report; only after a not-found is the report named,
labelled and created, and every path that does not return reaches the status patch. -/
def updateSubscriptionReport (k8sClient : Store SubscriptionReport)
    (subscriptionName subscriptionNamespace : String) (subscriptionReport : SubscriptionReport) :
    Option SyncError × Store SubscriptionReport :=
  match k8sClient.Get { Name := subscriptionName, Namespace := subscriptionNamespace } with
  | (.error err, k8sClient) =>
      let originalSubscriptionReport : SubscriptionReport := {}
      if err.isNotFound then
        let subscriptionReport := { subscriptionReport with
          ObjectMeta := { subscriptionReport.ObjectMeta with
            Name := subscriptionName
            Namespace := subscriptionNamespace
            Labels := [(AnnotationHosting, subscriptionNamespace ++ "." ++ subscriptionName)] } }
        match k8sClient.Create subscriptionReport with
        | (some err, k8sClient) => (some (.create err), k8sClient)
        | (none, k8sClient) =>
            patchSubscriptionReport k8sClient subscriptionReport originalSubscriptionReport
      else patchSubscriptionReport k8sClient subscriptionReport originalSubscriptionReport
  | (.ok originalSubscriptionReport, k8sClient) =>
      patchSubscriptionReport k8sClient subscriptionReport originalSubscriptionReport

/-! ## The handlers -/

/-- The function `handlePolicy`, on the rows of its query (a failed query iterates over no
row): the status patch of the instance; its error is logged, not returned. -/
def handlePolicy (k8sClient : Store Policy) (policy : Policy)
    (rows : List (Except DBError ComplianceRow)) : Store Policy :=
  let originalInstance := policy
  let policy := handlePolicyInstance policy rows
  (k8sClient.Patch policy originalInstance).2

/-- The function `handlePlacementStatus`; errors are logged, not returned. -/
def handlePlacementStatus (k8sClient : Store Placement)
    (query : Except DBError (List (Except DBError Placement)))
    (placementName placementNamespace : String) : Store Placement :=
  match getPlacementStatus query with
  | .error _ => k8sClient
  | .ok (placementStatus, statusEntriesFound) =>
      if !statusEntriesFound then k8sClient
      else (updatePlacementStatus k8sClient placementName placementNamespace placementStatus).2

/-- The function `handleSubscriptionReport`; errors are logged, not returned. -/
def handleSubscriptionReport (k8sClient : Store SubscriptionReport)
    (query : Except DBError (List (Except DBError SubscriptionReport)))
    (subscriptionName subscriptionNamespace : String) : Store SubscriptionReport :=
  match getSubscriptionReport query with
  | .error _ => k8sClient
  | .ok subscriptionReport =>
      (updateSubscriptionReport k8sClient subscriptionName subscriptionNamespace
        subscriptionReport).2

/-! ## Vocabulary of the statements -/

/-- The rows of a query result that scanned, in order. -/
def scannedRows {α : Type} (rows : List (Except DBError α)) : List α :=
  rows.filterMap Except.toOption

/-- The per-cluster status the loop of `handlePolicy` appends for a scanned row. -/
def perClusterStatus (row : ComplianceRow) : CompliancePerClusterStatus :=
  { ComplianceState := mappedCompliance row.complianceInDB
    ClusterName := row.clusterName
    ClusterNamespace := row.leafHubName }

/-- The placement label of a row as `getAggregatedPlacementDecisions` reads it:
`Labels[clustersv1beta1.PlacementLabel]`. -/
def placementLabelOf (row : PlacementDecision) : String :=
  mapIndex row.ObjectMeta.Labels PlacementLabel

/-- The rows whose placement label equals the target name, in order. -/
def matchingRows (placementDecisionName : String) (rows : List PlacementDecision) :
    List PlacementDecision :=
  rows.filter (fun row => decide (placementLabelOf row = placementDecisionName))

/-- The number a list of decimal digits stands for, least significant digit first. -/
def digitsValue : List Nat → Nat
  | [] => 0
  | d :: ds => digitsValue ds * 10 + d

/-- The five counters of a summary. -/
def summaryCounters : List (SubscriptionReportSummary → String) :=
  [fun summary => summary.Deployed, fun summary => summary.InProgress,
   fun summary => summary.Failed, fun summary => summary.PropagationFailed,
   fun summary => summary.Clusters]

/-- The exact sum, over the rows, of `stringToInt` of a counter. -/
def counterSum (counter : SubscriptionReportSummary → String)
    (rows : List SubscriptionReport) : Int :=
  (rows.map (fun row => stringToInt (counter row.Summary))).sum

/-- The error of a `Get`, `none` when it found the object. -/
def getFailure {α : Type} (result : Except APIError α) : Option APIError :=
  match result with
  | .error err => some err
  | .ok _ => none

/-- Whether every row of a query result scanned. -/
def allScanned {α : Type} (rows : List (Except DBError α)) : Bool :=
  rows.all (fun row => row.toOption.isSome)

/-- Whether a call failed with an error other than not-found. -/
def Call.failedOtherThanNotFound {α : Type} (call : Call α) : Bool :=
  match call.failure with
  | some err => !err.isNotFound
  | none => false

/-- Whether a call is a `Create` that failed, with whatever error. -/
def Call.failedCreate {α : Type} (call : Call α) : Bool :=
  decide (call.verb = .create) && call.failure.isSome

/-- Whether a call is a `Get` that failed with an error other than not-found. -/
def Call.failedGet {α : Type} (call : Call α) : Bool :=
  decide (call.verb = .get) && call.failedOtherThanNotFound

/-- Whether a call writes to the store: a create, a status patch or a delete. -/
def Call.isWrite {α : Type} (call : Call α) : Bool :=
  decide (call.verb = .create) || decide (call.verb = .patch) || decide (call.verb = .delete)

/-- A run from `before` to `after` that is a no-op on the store: no create, no patch and no
delete issued, and the published objects left as they were. -/
def leavesStoreUntouched {α : Type} [DecidableEq α] (before after : Store α) : Bool :=
  !(Store.callsSince before after).any Call.isWrite && decide (after.objects = before.objects)

/-- The error of the first row of a query result that fails to scan, if any. -/
def firstScanError {α : Type} : List (Except DBError α) → Option DBError
  | [] => none
  | .error err :: _ => some err
  | .ok _ :: rest => firstScanError rest

/-- The placement `updatePlacementStatus` submits to the status patch after it read
`deployedPlacement`. -/
def desiredPlacement (deployedPlacement : Placement) (placementStatus : PlacementStatus) :
    Placement :=
  { deployedPlacement with
    Status := { deployedPlacement.Status with
      NumberOfSelectedClusters := placementStatus.NumberOfSelectedClusters } }

/-- The placement decision `updatePlacementDecision` submits to the status patch after it
read `deployedPlacementDecision`. -/
def desiredPlacementDecision (deployedPlacementDecision aggregatedPlacementDecision :
    PlacementDecision) : PlacementDecision :=
  { deployedPlacementDecision with
    Status := { deployedPlacementDecision.Status with
      Decisions := aggregatedPlacementDecision.Status.Decisions } }

/-- The verbs and the errors of the calls issued between `before` and `after`. -/
def outcomesSince {α : Type} (before after : Store α) : List (Verb × Option APIError) :=
  (Store.callsSince before after).map (fun call => (call.verb, call.failure))

/-- A status patch whose submitted object equals its snapshot: the merge patch is the
empty diff, which leaves every stored object as it is. -/
def Call.isEmptyPatch {α : Type} [Resource α] (call : Call α) : Prop :=
  ∃ obj, call.submitted = some obj ∧ call.snapshot = some obj ∧
    ∀ stored : α, Resource.applyStatusPatch obj obj stored = stored

/-! # Theorems -/

/-! ## Policy compliance -/

theorem mappedCompliance_eq (complianceInDB : String) :
    mappedCompliance complianceInDB =
      if complianceInDB = "compliant" then "Compliant"
      else if complianceInDB = "non_compliant" then "NonCompliant" else "" := by
  unfold mappedCompliance dbEnumToPolicyComplianceStateMap dbEnumCompliant dbEnumNonCompliant
    Compliant NonCompliant
  by_cases h1 : complianceInDB = "compliant"
  · subst h1; rfl
  · by_cases h2 : complianceInDB = "non_compliant"
    · subst h2; rfl
    · have e1 : (complianceInDB == "compliant") = false := by simpa using h1
      have e2 : (complianceInDB == "non_compliant") = false := by simpa using h2
      simp [List.lookup, e1, e2, h1, h2]

theorem mappedCompliance_nonCompliant_iff (complianceInDB : String) :
    mappedCompliance complianceInDB = NonCompliant ↔ complianceInDB = "non_compliant" := by
  rw [mappedCompliance_eq]
  unfold NonCompliant
  by_cases h1 : complianceInDB = "compliant"
  · subst h1; decide
  · by_cases h2 : complianceInDB = "non_compliant"
    · subst h2; decide
    · simp [h1, h2]

theorem handlePolicyRows_eq (rows : List (Except DBError ComplianceRow))
    (statuses : List CompliancePerClusterStatus) (hasNonCompliantClusters : Bool) :
    handlePolicyRows rows statuses hasNonCompliantClusters =
      (statuses ++ (scannedRows rows).map perClusterStatus,
        hasNonCompliantClusters ||
          (scannedRows rows).any (fun row => decide (row.complianceInDB = "non_compliant"))) := by
  induction rows generalizing statuses hasNonCompliantClusters with
  | nil => simp [handlePolicyRows, scannedRows]
  | cons row rest ih =>
      cases row with
      | error err =>
          simp only [handlePolicyRows, ih]
          simp [scannedRows, Except.toOption]
      | ok row =>
          have hm : (mappedCompliance row.complianceInDB = NonCompliant) =
              (row.complianceInDB = "non_compliant") :=
            propext (mappedCompliance_nonCompliant_iff _)
          simp only [handlePolicyRows, ih, hm]
          by_cases h : row.complianceInDB = "non_compliant" <;>
            simp [scannedRows, Except.toOption, perClusterStatus, h]

theorem scannedRows_map_ok {α : Type} (rows : List α) :
    scannedRows (rows.map (Except.ok : α → Except DBError α)) = rows := by
  induction rows with
  | nil => rfl
  | cons row rest ih =>
      simp only [scannedRows, List.map_cons, List.filterMap_cons, Except.toOption] at ih ⊢
      rw [ih]

/-! ## The trace of the store -/

theorem Store.Patch_calls {α : Type} [Resource α] (store : Store α) (modified original : α) :
    (store.Patch modified original).2.calls =
      store.calls ++
        [⟨.patch, objectKey modified, some modified, some original,
          (store.Patch modified original).1⟩] := by
  unfold Store.Patch
  rcases store.nextFault with ⟨_ | err, faults⟩
  · cases store.find (objectKey modified) <;> simp [Store.record]
  · simp [Store.record]

theorem Store.Create_calls {α : Type} [Resource α] (store : Store α) (obj : α) :
    (store.Create obj).2.calls =
      store.calls ++ [⟨.create, objectKey obj, some obj, none, (store.Create obj).1⟩] := by
  unfold Store.Create
  rcases store.nextFault with ⟨_ | err, faults⟩
  · cases store.find (objectKey obj) <;> simp [Store.record]
  · simp [Store.record]

theorem Store.Get_calls {α : Type} [Resource α] (store : Store α) (key : ObjectKey) :
    (store.Get key).2.calls =
      store.calls ++ [⟨.get, key, none, none, getFailure (store.Get key).1⟩] := by
  unfold Store.Get
  rcases store.nextFault with ⟨_ | err, faults⟩
  · cases store.find key <;> simp [Store.record, getFailure]
  · simp [Store.record, getFailure]

theorem Store.callsSince_append {α : Type} (before after : Store α) (calls : List (Call α))
    (h : after.calls = before.calls ++ calls) : Store.callsSince before after = calls := by
  simp [Store.callsSince, h]

/-- C1: for every sequence of successfully scanned compliance rows of a policy, the one
object `handlePolicy` submits to the status patch has the overall `ComplianceState`
`NonCompliant` if some row has the compliance `non_compliant`, otherwise `Compliant` if the
sequence is not empty, otherwise the empty state. -/
theorem handlePolicy_overall_state (k8sClient : Store Policy) (policy : Policy)
    (rows : List ComplianceRow) :
    (Store.patchedSince k8sClient
        (handlePolicy k8sClient policy (rows.map Except.ok))).map
        (fun submitted => submitted.Status.ComplianceState) =
      [if ∃ row ∈ rows, row.complianceInDB = "non_compliant" then "NonCompliant"
       else if rows ≠ [] then "Compliant" else ""] := by
  have hcalls := Store.callsSince_append k8sClient
    (handlePolicy k8sClient policy (rows.map Except.ok)) _
    (Store.Patch_calls k8sClient (handlePolicyInstance policy (rows.map Except.ok)) policy)
  unfold Store.patchedSince
  rw [hcalls]
  simp only [List.filterMap_cons, List.filterMap_nil, if_true, List.map_cons, List.map_nil,
    handlePolicyInstance, handlePolicyRows_eq, scannedRows_map_ok, List.nil_append,
    Bool.false_or, List.length_map]
  by_cases h : ∃ row ∈ rows, row.complianceInDB = "non_compliant"
  · have hany : (rows.any fun row => decide (row.complianceInDB = "non_compliant")) = true := by
      simpa using h
    rw [if_pos h]
    simp [hany, NonCompliant]
  · have hany : (rows.any fun row => decide (row.complianceInDB = "non_compliant")) = false := by
      simpa using h
    rw [if_neg h]
    cases rows with
    | nil => simp
    | cons row rest => simp [hany, Compliant]

/-- C2: for every sequence of successfully scanned compliance rows, the per-cluster status
list of the object `handlePolicy` submits to the status patch has one entry per row, in the
order of the rows, with the cluster name of the row, with the leaf hub name of the row as
`ClusterNamespace`, and with the state `Compliant` for `compliant`, `NonCompliant` for
`non_compliant` and the empty state for every other compliance string; no compliance string
fails the merge or drops a row. -/
theorem handlePolicy_per_cluster_statuses (k8sClient : Store Policy) (policy : Policy)
    (rows : List ComplianceRow) :
    (Store.patchedSince k8sClient
        (handlePolicy k8sClient policy (rows.map Except.ok))).map
        (fun submitted => submitted.Status.Status) =
      [rows.map (fun row =>
        { ComplianceState :=
            if row.complianceInDB = "compliant" then "Compliant"
            else if row.complianceInDB = "non_compliant" then "NonCompliant" else ""
          ClusterName := row.clusterName
          ClusterNamespace := row.leafHubName })] := by
  have hcalls := Store.callsSince_append k8sClient
    (handlePolicy k8sClient policy (rows.map Except.ok)) _
    (Store.Patch_calls k8sClient (handlePolicyInstance policy (rows.map Except.ok)) policy)
  unfold Store.patchedSince
  rw [hcalls]
  have hmap : perClusterStatus = fun row : ComplianceRow =>
      ({ ComplianceState :=
          if row.complianceInDB = "compliant" then "Compliant"
          else if row.complianceInDB = "non_compliant" then "NonCompliant" else ""
         ClusterName := row.clusterName
         ClusterNamespace := row.leafHubName } : CompliancePerClusterStatus) := by
    funext row
    simp only [perClusterStatus, mappedCompliance_eq]
  simp only [List.filterMap_cons, List.filterMap_nil, if_true, List.map_cons, List.map_nil,
    handlePolicyInstance, handlePolicyRows_eq, scannedRows_map_ok, List.nil_append, hmap]
  split <;> [rfl; (split <;> rfl)]

/-! ## Machine arithmetic -/

theorem wrapInt32_add_left (x y : Int) : wrapInt32 (wrapInt32 x + y) = wrapInt32 (x + y) := by
  unfold wrapInt32 wrapSigned
  norm_num
  omega

theorem wrapInt32_idem (x : Int) : wrapInt32 (wrapInt32 x) = wrapInt32 x := by
  have h := wrapInt32_add_left x 0
  simpa using h

theorem wrapInt32_of_fits (x : Int) (hlo : -2147483648 ≤ x) (hhi : x < 2147483648) :
    wrapInt32 x = x := by
  unfold wrapInt32 wrapSigned
  norm_num
  omega

theorem wrapInt_add_left (x y : Int) : wrapInt (wrapInt x + y) = wrapInt (x + y) := by
  unfold wrapInt wrapSigned intSize
  norm_num
  omega

theorem wrapInt_of_fits (x : Int) (hlo : minInt ≤ x) (hhi : x ≤ maxInt) : wrapInt x = x := by
  unfold minInt maxInt intSize at *
  unfold wrapInt wrapSigned intSize
  norm_num at *
  omega

theorem wrapInt_fits (x : Int) : minInt ≤ wrapInt x ∧ wrapInt x ≤ maxInt := by
  unfold minInt maxInt wrapInt wrapSigned intSize
  norm_num
  omega

/-! ## Placement -/

theorem getPlacementStatusRows_ok (rows : List Placement) (placementStatus : PlacementStatus)
    (statusEntriesFound : Bool)
    (h : wrapInt32 placementStatus.NumberOfSelectedClusters =
      placementStatus.NumberOfSelectedClusters) :
    getPlacementStatusRows (rows.map Except.ok) placementStatus statusEntriesFound =
      .ok ({ placementStatus with
              NumberOfSelectedClusters := wrapInt32
                (placementStatus.NumberOfSelectedClusters +
                  (rows.map (fun row => row.Status.NumberOfSelectedClusters)).sum) },
           statusEntriesFound || decide (rows ≠ [])) := by
  induction rows generalizing placementStatus statusEntriesFound with
  | nil => simp [getPlacementStatusRows, h]
  | cons row rest ih =>
      simp only [List.map_cons, getPlacementStatusRows]
      rw [ih _ _ (wrapInt32_idem _)]
      simp only [wrapInt32_add_left, List.sum_cons, add_assoc]
      cases statusEntriesFound <;> simp

/-- C3: for every sequence of leaf-hub placement rows that all scan, `getPlacementStatus`
returns a status and `statusEntriesFound`, which is true exactly when the sequence is not
empty; the `NumberOfSelectedClusters` of the status is the `int32` sum of the numbers of the
rows, no row deduplicated, which is their exact sum whenever that fits in `int32`. -/
theorem getPlacementStatus_sum (rows : List Placement) :
    ∃ placementStatus,
      getPlacementStatus (.ok (rows.map Except.ok)) =
        .ok (placementStatus, decide (rows ≠ [])) ∧
      placementStatus.NumberOfSelectedClusters =
        wrapInt32 (rows.map (fun row => row.Status.NumberOfSelectedClusters)).sum ∧
      (-2147483648 ≤ (rows.map (fun row => row.Status.NumberOfSelectedClusters)).sum →
        (rows.map (fun row => row.Status.NumberOfSelectedClusters)).sum < 2147483648 →
        placementStatus.NumberOfSelectedClusters =
          (rows.map (fun row => row.Status.NumberOfSelectedClusters)).sum) := by
  refine ⟨{ NumberOfSelectedClusters :=
      wrapInt32 (rows.map (fun row => row.Status.NumberOfSelectedClusters)).sum }, ?_, rfl, ?_⟩
  · unfold getPlacementStatus
    simp only
    rw [getPlacementStatusRows_ok rows {} false (by decide)]
    simp only [zero_add, Bool.false_or]
  · intro hlo hhi
    exact wrapInt32_of_fits _ hlo hhi

/-- C3, on the rows 3, 5, 2 of three hubs: the aggregate is 10. -/
theorem getPlacementStatus_sum_witness :
    ∃ placementStatus,
      getPlacementStatus
          (.ok ([{ Status := { NumberOfSelectedClusters := 3 } },
                 { Status := { NumberOfSelectedClusters := 5 } },
                 { Status := { NumberOfSelectedClusters := 2 } }].map Except.ok)) =
        .ok (placementStatus, true) ∧
      placementStatus.NumberOfSelectedClusters = 10 := by
  obtain ⟨placementStatus, hresult, _, hfits⟩ :=
    getPlacementStatus_sum
      [{ Status := { NumberOfSelectedClusters := 3 } },
       { Status := { NumberOfSelectedClusters := 5 } },
       { Status := { NumberOfSelectedClusters := 2 } }]
  exact ⟨placementStatus, hresult, hfits (by decide) (by decide)⟩

/-! ## Placement decision -/

theorem getAggregatedPlacementDecisionsRows_some (placementDecisionName : String)
    (rows : List PlacementDecision) (aggregated : PlacementDecision) :
    getAggregatedPlacementDecisionsRows placementDecisionName (rows.map Except.ok)
        (some aggregated) =
      .ok (some { aggregated with
        Status := { aggregated.Status with
          Decisions := aggregated.Status.Decisions ++
            ((matchingRows placementDecisionName rows).map
              (fun row => row.Status.Decisions)).flatten } }) := by
  induction rows generalizing aggregated with
  | nil => simp [getAggregatedPlacementDecisionsRows, matchingRows]
  | cons row rest ih =>
      simp only [List.map_cons, getAggregatedPlacementDecisionsRows]
      by_cases h : mapIndex row.ObjectMeta.Labels PlacementLabel = placementDecisionName
      · simp [h, ih, matchingRows, placementLabelOf, List.filter_cons]
      · simp [h, ih, matchingRows, placementLabelOf, List.filter_cons]

theorem getAggregatedPlacementDecisionsRows_none (placementDecisionName : String)
    (rows : List PlacementDecision) :
    getAggregatedPlacementDecisionsRows placementDecisionName (rows.map Except.ok) none =
      .ok (match matchingRows placementDecisionName rows with
        | [] => none
        | first :: others =>
            some { ObjectMeta := { first.ObjectMeta with OwnerReferences := [] }
                   Status := { Decisions := first.Status.Decisions ++
                     (others.map (fun row => row.Status.Decisions)).flatten } }) := by
  induction rows with
  | nil => simp [getAggregatedPlacementDecisionsRows, matchingRows]
  | cons row rest ih =>
      simp only [List.map_cons, getAggregatedPlacementDecisionsRows]
      by_cases h : mapIndex row.ObjectMeta.Labels PlacementLabel = placementDecisionName
      · simp [h, getAggregatedPlacementDecisionsRows_some, matchingRows, placementLabelOf,
          List.filter_cons]
      · simp only [h, ne_eq, not_false_eq_true, if_true, ih]
        simp [matchingRows, placementLabelOf, List.filter_cons, h]

/-- C4: for every sequence of successfully scanned placement-decision rows and every target
placement name, `getAggregatedPlacementDecisions` returns nil exactly when no row has a
placement label equal to the target name; otherwise it returns the first row whose label
equals the target name, with its owner references emptied and with `Status.Decisions` the
concatenation, in row order, of the decision lists of all the rows whose label equals the
target name. Rows with any other label contribute nothing. -/
theorem getAggregatedPlacementDecisions_spec (rows : List PlacementDecision)
    (placementDecisionName : String) :
    (getAggregatedPlacementDecisions (.ok (rows.map Except.ok)) placementDecisionName =
        .ok none ↔
      ∀ row ∈ rows, placementLabelOf row ≠ placementDecisionName) ∧
    getAggregatedPlacementDecisions (.ok (rows.map Except.ok)) placementDecisionName =
      .ok ((rows.find? (fun row => decide (placementLabelOf row = placementDecisionName))).map
        (fun first =>
          { ObjectMeta := { first.ObjectMeta with OwnerReferences := [] }
            Status := { Decisions :=
              ((rows.filter
                  (fun row => decide (placementLabelOf row = placementDecisionName))).map
                (fun row => row.Status.Decisions)).flatten } })) := by
  have hfind : ∀ l : List PlacementDecision,
      l.find? (fun row => decide (placementLabelOf row = placementDecisionName)) =
        (matchingRows placementDecisionName l).head? := by
    intro l
    induction l with
    | nil => rfl
    | cons row rest ih =>
        by_cases h : placementLabelOf row = placementDecisionName
        · simp [matchingRows, List.find?_cons, List.filter_cons, h]
        · simp [matchingRows, List.find?_cons, List.filter_cons, h]
  have hmain := getAggregatedPlacementDecisionsRows_none placementDecisionName rows
  unfold getAggregatedPlacementDecisions
  simp only
  rw [hmain, hfind]
  have hnil : matchingRows placementDecisionName rows = [] ↔
      ∀ row ∈ rows, placementLabelOf row ≠ placementDecisionName := by
    simp [matchingRows, List.filter_eq_nil_iff]
  constructor
  · rw [← hnil]
    cases hm : matchingRows placementDecisionName rows with
    | nil => simp
    | cons first others => simp
  · change _ = Except.ok ((matchingRows placementDecisionName rows).head?.map _)
    unfold matchingRows at *
    cases hm : rows.filter
        (fun row => decide (placementLabelOf row = placementDecisionName)) with
    | nil => simp
    | cons first others => simp

/-! ## Decimal conversions -/

theorem decimalDigits_lt (fuel n : Nat) : ∀ d ∈ decimalDigits fuel n, d < 10 := by
  induction fuel generalizing n with
  | zero => simp [decimalDigits]
  | succ fuel ih =>
      intro d hd
      unfold decimalDigits at hd
      split at hd
      · simp only [List.mem_singleton] at hd
        omega
      · rcases List.mem_cons.1 hd with h | h
        · omega
        · exact ih _ d h

theorem digitsValue_decimalDigits (fuel n : Nat) (h : n < fuel) :
    digitsValue (decimalDigits fuel n) = n := by
  induction fuel generalizing n with
  | zero => omega
  | succ fuel ih =>
      unfold decimalDigits
      split
      · simp [digitsValue]
      · simp only [digitsValue]
        rw [ih (n / 10) (by omega)]
        omega

theorem decimalDigits_ne_nil (fuel n : Nat) : decimalDigits (fuel + 1) n ≠ [] := by
  unfold decimalDigits
  split <;> simp

theorem digitValue_digitChar (d : Nat) (h : d < 10) : digitValue (Nat.digitChar d) = some d := by
  interval_cases d <;> decide

theorem parseDigits_append (cs : List Char) (c : Char) (n : Nat) :
    parseDigits (cs ++ [c]) n =
      (parseDigits cs n).bind (fun m => (digitValue c).map (fun d => m * 10 + d)) := by
  induction cs generalizing n with
  | nil =>
      simp only [List.nil_append, parseDigits, Option.some_bind]
      cases digitValue c <;> rfl
  | cons c0 cs ih =>
      simp only [List.cons_append, parseDigits]
      cases digitValue c0 with
      | none => rfl
      | some d => exact ih _

theorem parseDigits_reverse (ds : List Nat) (h : ∀ d ∈ ds, d < 10) :
    parseDigits (ds.reverse.map Nat.digitChar) 0 = some (digitsValue ds) := by
  induction ds with
  | nil => rfl
  | cons d ds ih =>
      rw [List.reverse_cons, List.map_append, List.map_singleton, parseDigits_append,
        ih (fun x hx => h x (List.mem_cons_of_mem _ hx)),
        digitValue_digitChar d (h d (List.mem_cons_self _ _))]
      rfl

theorem parseDigits_formatUint (n : Nat) : parseDigits (formatUint n) 0 = some n := by
  unfold formatUint
  rw [parseDigits_reverse _ (decimalDigits_lt _ _), digitsValue_decimalDigits _ _ (by omega)]

theorem formatUint_eq_cons (n : Nat) :
    ∃ c cs, formatUint n = c :: cs ∧ c ≠ '-' ∧ c ≠ '+' := by
  have hparse := parseDigits_formatUint n
  cases hfmt : formatUint n with
  | nil =>
      exfalso
      have hlen := congrArg List.length hfmt
      simp only [formatUint, List.length_map, List.length_reverse, List.length_nil] at hlen
      exact decimalDigits_ne_nil n n (List.length_eq_zero.1 hlen)
  | cons c cs =>
      refine ⟨c, cs, rfl, ?_, ?_⟩
      · intro hc
        rw [hfmt, hc] at hparse
        simp [parseDigits, digitValue] at hparse
      · intro hc
        rw [hfmt, hc] at hparse
        simp [parseDigits, digitValue] at hparse

theorem Atoi_Itoa (i : Int) (hlo : minInt ≤ i) (hhi : i ≤ maxInt) : Atoi (Itoa i) = some i := by
  obtain ⟨c, cs, hfmt, hminus, hplus⟩ := formatUint_eq_cons i.natAbs
  have hparse := parseDigits_formatUint i.natAbs
  rw [hfmt] at hparse
  unfold Itoa
  by_cases hneg : i < 0
  · have habs : -((i.natAbs : Nat) : Int) = i := by omega
    simp only [hneg, if_true, Atoi, hfmt, hparse, decide_True, true_or, habs]
    have h1 : ¬ i < minInt := by omega
    simp [h1]
  · have habs : ((i.natAbs : Nat) : Int) = i := by omega
    have h1 : ¬ i > maxInt := by omega
    simp only [hneg, if_false, Atoi, hfmt, hminus, hplus, or_self, hparse, decide_False, habs]
    simp [h1]

theorem stringToInt_Itoa (i : Int) (hlo : minInt ≤ i) (hhi : i ≤ maxInt) :
    stringToInt (Itoa i) = i := by
  unfold stringToInt
  rw [Atoi_Itoa i hlo hhi]

theorem stringToInt_Itoa_wrapInt (x : Int) : stringToInt (Itoa (wrapInt x)) = wrapInt x :=
  stringToInt_Itoa _ (wrapInt_fits x).1 (wrapInt_fits x).2

/-! ## Subscription report -/

theorem getSubscriptionReportRows_ok (rows : List SubscriptionReport)
    (subscriptionReport : SubscriptionReport) :
    getSubscriptionReportRows (rows.map Except.ok) subscriptionReport =
      .ok (rows.foldl getSubscriptionReportStep subscriptionReport) := by
  induction rows generalizing subscriptionReport with
  | nil => rfl
  | cons row rest ih => simp only [List.map_cons, getSubscriptionReportRows, ih, List.foldl_cons]

theorem getSubscriptionReport_ok (rows : List SubscriptionReport) :
    getSubscriptionReport (.ok (rows.map Except.ok)) =
      .ok (rows.foldl getSubscriptionReportStep {}) := by
  unfold getSubscriptionReport
  exact getSubscriptionReportRows_ok rows {}

theorem getSubscriptionReportStep_Summary (report row : SubscriptionReport) :
    (getSubscriptionReportStep report row).Summary =
      updateSubscriptionReportSummary report.Summary row.Summary := by
  unfold getSubscriptionReportStep
  simp only
  split <;> rfl

theorem getSubscriptionReportStep_Results (report row : SubscriptionReport) :
    (getSubscriptionReportStep report row).Results = report.Results ++ row.Results := by
  unfold getSubscriptionReportStep
  simp only
  split <;> rfl

theorem getSubscriptionReportStep_Resources (report row : SubscriptionReport) :
    (getSubscriptionReportStep report row).Resources =
      if report.Resources = [] then row.Resources else report.Resources := by
  unfold getSubscriptionReportStep
  simp only [List.length_eq_zero]
  by_cases h : report.Resources = [] <;> simp [h]

theorem getSubscriptionReportStep_ReportType (report row : SubscriptionReport) :
    (getSubscriptionReportStep report row).ReportType =
      if report.Resources = [] then row.ReportType else report.ReportType := by
  unfold getSubscriptionReportStep
  simp only [List.length_eq_zero]
  by_cases h : report.Resources = [] <;> simp [h]

theorem foldl_Results (rows : List SubscriptionReport) (report : SubscriptionReport) :
    (rows.foldl getSubscriptionReportStep report).Results =
      report.Results ++ (rows.map (fun row => row.Results)).flatten := by
  induction rows generalizing report with
  | nil => simp
  | cons row rest ih =>
      simp only [List.foldl_cons, ih, getSubscriptionReportStep_Results, List.map_cons,
        List.flatten_cons, List.append_assoc]

theorem foldl_Resources_of_ne_nil (rows : List SubscriptionReport)
    (report : SubscriptionReport) (h : report.Resources ≠ []) :
    (rows.foldl getSubscriptionReportStep report).Resources = report.Resources ∧
      (rows.foldl getSubscriptionReportStep report).ReportType = report.ReportType := by
  induction rows generalizing report with
  | nil => exact ⟨rfl, rfl⟩
  | cons row rest ih =>
      have hres : (getSubscriptionReportStep report row).Resources = report.Resources := by
        rw [getSubscriptionReportStep_Resources, if_neg h]
      have htype : (getSubscriptionReportStep report row).ReportType = report.ReportType := by
        rw [getSubscriptionReportStep_ReportType, if_neg h]
      have := ih (getSubscriptionReportStep report row) (by rw [hres]; exact h)
      simp only [List.foldl_cons]
      rw [this.1, this.2, hres, htype]
      exact ⟨rfl, rfl⟩

theorem foldl_Resources_of_nil (rows : List SubscriptionReport)
    (report : SubscriptionReport) (h : report.Resources = []) :
    ((rows.foldl getSubscriptionReportStep report).Resources,
      (rows.foldl getSubscriptionReportStep report).ReportType) =
      match rows.find? (fun row => decide (row.Resources ≠ [])) with
      | some row => (row.Resources, row.ReportType)
      | none => ([], ((rows.getLast?).map (fun row => row.ReportType)).getD report.ReportType) := by
  induction rows generalizing report with
  | nil => simp [h]
  | cons row rest ih =>
      simp only [List.foldl_cons]
      by_cases hrow : row.Resources = []
      · have hres : (getSubscriptionReportStep report row).Resources = [] := by
          rw [getSubscriptionReportStep_Resources, if_pos h, hrow]
        have htype : (getSubscriptionReportStep report row).ReportType = row.ReportType := by
          rw [getSubscriptionReportStep_ReportType, if_pos h]
        rw [ih _ hres, htype]
        simp only [List.find?_cons, hrow, ne_eq, not_true_eq_false, decide_False]
        cases hfind : rest.find? (fun row => decide (¬ row.Resources = [])) with
        | some found => rfl
        | none =>
            cases rest with
            | nil => rfl
            | cons r rs =>
                have hlast : (row :: r :: rs).getLast? = (r :: rs).getLast? :=
                  List.getLast?_cons_cons
                rw [hlast, List.getLast?_eq_getLast _ (List.cons_ne_nil r rs)]
                rfl
      · have hres : (getSubscriptionReportStep report row).Resources = row.Resources := by
          rw [getSubscriptionReportStep_Resources, if_pos h]
        have htype : (getSubscriptionReportStep report row).ReportType = row.ReportType := by
          rw [getSubscriptionReportStep_ReportType, if_pos h]
        have := foldl_Resources_of_ne_nil rest (getSubscriptionReportStep report row)
          (by rw [hres]; exact hrow)
        rw [this.1, this.2, hres, htype]
        simp [List.find?_cons, hrow]

theorem updateSubscriptionReportSummary_counter (counter : SubscriptionReportSummary → String)
    (h : counter ∈ summaryCounters) (aggregatedSummary reportSummary : SubscriptionReportSummary) :
    counter (updateSubscriptionReportSummary aggregatedSummary reportSummary) =
      Itoa (wrapInt (stringToInt (counter aggregatedSummary) +
        stringToInt (counter reportSummary))) := by
  simp only [summaryCounters, List.mem_cons, List.mem_singleton, List.not_mem_nil,
    or_false] at h
  rcases h with h | h | h | h | h <;> subst h <;> rfl

theorem summaryCounters_empty (counter : SubscriptionReportSummary → String)
    (h : counter ∈ summaryCounters) : counter {} = "" := by
  simp only [summaryCounters, List.mem_cons, List.mem_singleton, List.not_mem_nil,
    or_false] at h
  rcases h with h | h | h | h | h <;> subst h <;> rfl

theorem foldl_counter (counter : SubscriptionReportSummary → String)
    (h : counter ∈ summaryCounters) (rows : List SubscriptionReport)
    (report : SubscriptionReport) (x : Int)
    (hx : counter report.Summary = Itoa (wrapInt x)) :
    counter (rows.foldl getSubscriptionReportStep report).Summary =
      Itoa (wrapInt (x + counterSum counter rows)) := by
  induction rows generalizing report x with
  | nil => simpa [counterSum] using hx
  | cons row rest ih =>
      simp only [List.foldl_cons]
      rw [ih (getSubscriptionReportStep report row) (x + stringToInt (counter row.Summary))]
      · simp only [counterSum, List.map_cons, List.sum_cons, add_assoc]
      · rw [getSubscriptionReportStep_Summary, updateSubscriptionReportSummary_counter _ h, hx,
          stringToInt_Itoa_wrapInt, wrapInt_add_left]

theorem foldl_counter_cons (counter : SubscriptionReportSummary → String)
    (h : counter ∈ summaryCounters) (row : SubscriptionReport) (rest : List SubscriptionReport) :
    counter ((row :: rest).foldl getSubscriptionReportStep {}).Summary =
      Itoa (wrapInt (counterSum counter (row :: rest))) := by
  simp only [List.foldl_cons]
  rw [foldl_counter counter h rest _ (stringToInt (counter row.Summary))]
  · simp only [counterSum, List.map_cons, List.sum_cons]
  · rw [getSubscriptionReportStep_Summary, updateSubscriptionReportSummary_counter _ h]
    have h0 : counter ({} : SubscriptionReport).Summary = "" := summaryCounters_empty counter h
    rw [h0]
    have hz : stringToInt "" = 0 := by decide
    rw [hz, zero_add]

/-- C5, as amended: for every non-empty sequence of successfully scanned subscription-report
rows, each of the five summary counters of the report `getSubscriptionReport` returns is the
decimal rendering of the Go `int` sum (wrapped to 64 bits) of `stringToInt` of the counter
over the rows, which is the exact sum whenever that fits in `int`; `stringToInt` is the parsed
integer of a string `strconv.Atoi` accepts and 0 for every other string. -/
theorem getSubscriptionReport_summary (row : SubscriptionReport)
    (rest : List SubscriptionReport) :
    (∃ report, getSubscriptionReport (.ok ((row :: rest).map Except.ok)) = .ok report ∧
      ∀ counter ∈ summaryCounters,
        counter report.Summary = Itoa (wrapInt (counterSum counter (row :: rest))) ∧
        (minInt ≤ counterSum counter (row :: rest) →
          counterSum counter (row :: rest) ≤ maxInt →
          counter report.Summary = Itoa (counterSum counter (row :: rest)))) ∧
    (∀ numberString number, Atoi numberString = some number →
      stringToInt numberString = number) ∧
    (∀ numberString, Atoi numberString = none → stringToInt numberString = 0) := by
  refine ⟨⟨_, getSubscriptionReport_ok (row :: rest), ?_⟩, ?_, ?_⟩
  · intro counter hcounter
    refine ⟨foldl_counter_cons counter hcounter row rest, ?_⟩
    intro hlo hhi
    rw [foldl_counter_cons counter hcounter row rest, wrapInt_of_fits _ hlo hhi]
  · intro numberString number h
    simp [stringToInt, h]
  · intro numberString h
    simp [stringToInt, h]

/-- C5, on the rows `deployed="2"` and `deployed="x"`: the aggregate `Deployed` is `"2"`. -/
theorem getSubscriptionReport_summary_witness :
    ∃ report,
      getSubscriptionReport
          (.ok [.ok { Summary := { Deployed := "2" } },
                .ok { Summary := { Deployed := "x" } }]) = .ok report ∧
        report.Summary.Deployed = "2" := by
  obtain ⟨⟨report, hreport, hcounters⟩, _, _⟩ :=
    getSubscriptionReport_summary { Summary := { Deployed := "2" } }
      [{ Summary := { Deployed := "x" } }]
  refine ⟨report, hreport, ?_⟩
  have h := (hcounters (fun summary => summary.Deployed) (by simp [summaryCounters])).2
    (by decide) (by decide)
  rw [h]
  decide

/-- C5 as stated fails when a sum leaves the range of `int`: on the rows
`deployed="9223372036854775807"` and `deployed="1"` the aggregate `Deployed` is
`"-9223372036854775808"`, not the rendering `"9223372036854775808"` of the sum. -/
theorem getSubscriptionReport_summary_overflow :
    (getSubscriptionReport
        (.ok [.ok { Summary := { Deployed := "9223372036854775807" } },
              .ok { Summary := { Deployed := "1" } }])).toOption.map
        (fun report => report.Summary.Deployed) = some "-9223372036854775808" ∧
    Itoa (counterSum (fun summary => summary.Deployed)
        [{ Summary := { Deployed := "9223372036854775807" } },
         { Summary := { Deployed := "1" } }]) = "9223372036854775808" ∧
    (getSubscriptionReport
        (.ok [.ok { Summary := { Deployed := "9223372036854775807" } },
              .ok { Summary := { Deployed := "1" } }])).toOption.map
        (fun report => report.Summary.Deployed) ≠
      some (Itoa (counterSum (fun summary => summary.Deployed)
        [{ Summary := { Deployed := "9223372036854775807" } },
         { Summary := { Deployed := "1" } }])) := by
  decide

/-- C6, as amended: for every non-empty sequence of successfully scanned subscription-report
rows, the `Resources` list and the `ReportType` of the report `getSubscriptionReport` returns
are those of the first row whose `Resources` list is not empty, so those of the first row of
the sequence whenever its `Resources` list is not empty, whatever the later rows hold; when
no row has a non-empty `Resources` list, `Resources` is empty and `ReportType` is that of
the last row. -/
theorem getSubscriptionReport_resources (row : SubscriptionReport)
    (rest : List SubscriptionReport) :
    ∃ report, getSubscriptionReport (.ok ((row :: rest).map Except.ok)) = .ok report ∧
      (report.Resources, report.ReportType) =
        (match (row :: rest).find? (fun row => decide (row.Resources ≠ [])) with
          | some found => (found.Resources, found.ReportType)
          | none => ([], (rest.getLastD row).ReportType)) ∧
      (row.Resources ≠ [] →
        report.Resources = row.Resources ∧ report.ReportType = row.ReportType) := by
  refine ⟨_, getSubscriptionReport_ok (row :: rest), ?_, ?_⟩
  · rw [foldl_Resources_of_nil (row :: rest) {} rfl]
    cases hfind : (row :: rest).find? (fun row => decide (row.Resources ≠ [])) with
    | some found => rfl
    | none =>
        cases rest with
        | nil => rfl
        | cons r rs =>
            have hlast : (row :: r :: rs).getLast? = (r :: rs).getLast? :=
              List.getLast?_cons_cons
            rw [hlast]
            simp [List.getLast?_cons]
  · intro hrow
    have h := foldl_Resources_of_nil (row :: rest) {} rfl
    simp only [List.find?_cons, hrow, ne_eq, not_false_eq_true, decide_True,
      Prod.mk.injEq] at h
    exact h

/-- C6, on a first row that lists a resource: the report has the resources and the type of
the first row, whatever the second row holds. -/
theorem getSubscriptionReport_resources_witness :
    ∃ report,
      getSubscriptionReport
          (.ok ([{ ReportType := "Application", Resources := [⟨"Deployment", "ns", "a", "apps/v1"⟩] },
                 { ReportType := "Cluster", Resources := [⟨"Service", "ns", "b", "v1"⟩] }].map
            Except.ok)) = .ok report ∧
        report.Resources = [⟨"Deployment", "ns", "a", "apps/v1"⟩] ∧
        report.ReportType = "Application" := by
  obtain ⟨report, hreport, _, hfirst⟩ :=
    getSubscriptionReport_resources
      { ReportType := "Application", Resources := [⟨"Deployment", "ns", "a", "apps/v1"⟩] }
      [{ ReportType := "Cluster", Resources := [⟨"Service", "ns", "b", "v1"⟩] }]
  exact ⟨report, hreport, hfirst (by decide)⟩

/-- C6 as stated fails when the first row lists no resource: the report then has the
resources and the type of the second row, not those of the first. -/
theorem getSubscriptionReport_resources_not_first :
    getSubscriptionReport
        (.ok [.ok { ReportType := "Application", Resources := [] },
              .ok { ReportType := "Cluster",
                    Resources := [⟨"Service", "ns", "b", "v1"⟩] }]) =
      .ok { ReportType := "Cluster"
            Summary := { Deployed := "0", InProgress := "0", Failed := "0",
                         PropagationFailed := "0", Clusters := "0" }
            Resources := [⟨"Service", "ns", "b", "v1"⟩] } ∧
    (getSubscriptionReport
        (.ok [.ok { ReportType := "Application", Resources := [] },
              .ok { ReportType := "Cluster",
                    Resources := [⟨"Service", "ns", "b", "v1"⟩] }])).toOption.map
        (fun report => (report.Resources, report.ReportType)) ≠
      some (([] : List ObjectReference), "Application") := by
  decide

/-- C7: for every sequence of successfully scanned subscription-report rows, the `Results`
list of the report `getSubscriptionReport` returns is the concatenation, in row order, of the
`Results` lists of the rows; its length is the total number of result entries of the rows. -/
theorem getSubscriptionReport_results (rows : List SubscriptionReport) :
    ∃ report, getSubscriptionReport (.ok (rows.map Except.ok)) = .ok report ∧
      report.Results = (rows.map (fun row => row.Results)).flatten ∧
      report.Results.length = (rows.map (fun row => row.Results.length)).sum := by
  refine ⟨_, getSubscriptionReport_ok rows, ?_, ?_⟩
  · rw [foldl_Results]
    rfl
  · rw [foldl_Results]
    simp [List.length_flatten, Function.comp_def]

/-! ## Rows that fail to scan -/

theorem allScanned_eq_map_ok {α : Type} (rows : List (Except DBError α))
    (h : allScanned rows = true) : rows = (scannedRows rows).map Except.ok := by
  induction rows with
  | nil => rfl
  | cons row rest ih =>
      simp only [allScanned, List.all_cons, Bool.and_eq_true] at h
      have hrest := ih (by simpa [allScanned] using h.2)
      cases row with
      | error err => simp [Except.toOption] at h
      | ok value =>
          simp only [scannedRows, List.filterMap_cons, Except.toOption, List.map_cons] at hrest ⊢
          rw [← hrest]

theorem allScanned_perm {α : Type} (rows rows' : List (Except DBError α))
    (h : rows.Perm rows') : allScanned rows = allScanned rows' := by
  rw [Bool.eq_iff_iff]
  simp only [allScanned, List.all_eq_true]
  exact ⟨fun hall row hrow => hall row (h.mem_iff.2 hrow),
    fun hall row hrow => hall row (h.mem_iff.1 hrow)⟩

theorem scannedRows_perm {α : Type} (rows rows' : List (Except DBError α))
    (h : rows.Perm rows') : (scannedRows rows).Perm (scannedRows rows') :=
  List.Perm.filterMap _ h

theorem getPlacementStatusRows_error (rows : List (Except DBError Placement))
    (h : allScanned rows = false) (placementStatus : PlacementStatus)
    (statusEntriesFound : Bool) :
    (getPlacementStatusRows rows placementStatus statusEntriesFound).toOption = none := by
  induction rows generalizing placementStatus statusEntriesFound with
  | nil => simp [allScanned] at h
  | cons row rest ih =>
      cases row with
      | error err => rfl
      | ok value =>
          simp only [getPlacementStatusRows]
          exact ih (by simpa [allScanned, Except.toOption] using h) _ _

theorem getSubscriptionReportRows_error (rows : List (Except DBError SubscriptionReport))
    (h : allScanned rows = false) (subscriptionReport : SubscriptionReport) :
    (getSubscriptionReportRows rows subscriptionReport).toOption = none := by
  induction rows generalizing subscriptionReport with
  | nil => simp [allScanned] at h
  | cons row rest ih =>
      cases row with
      | error err => rfl
      | ok value =>
          simp only [getSubscriptionReportRows]
          exact ih (by simpa [allScanned, Except.toOption] using h) _

theorem getPlacementStatus_number (rows : List (Except DBError Placement)) :
    (getPlacementStatus (.ok rows)).toOption.map
        (fun result => result.1.NumberOfSelectedClusters) =
      if allScanned rows = true then
        some (wrapInt32
          ((scannedRows rows).map (fun row => row.Status.NumberOfSelectedClusters)).sum)
      else none := by
  unfold getPlacementStatus
  simp only
  by_cases h : allScanned rows = true
  · rw [if_pos h]
    conv_lhs => rw [allScanned_eq_map_ok rows h]
    rw [getPlacementStatusRows_ok _ {} false (by decide)]
    simp [Except.toOption]
  · rw [if_neg h, getPlacementStatusRows_error rows (by simpa using h)]
    rfl

theorem foldl_counter_eq (counter : SubscriptionReportSummary → String)
    (h : counter ∈ summaryCounters) (rows : List SubscriptionReport) :
    counter (rows.foldl getSubscriptionReportStep {}).Summary =
      if rows = [] then "" else Itoa (wrapInt (counterSum counter rows)) := by
  cases rows with
  | nil => simpa using summaryCounters_empty counter h
  | cons row rest => simpa using foldl_counter_cons counter h row rest

theorem getSubscriptionReport_counter (counter : SubscriptionReportSummary → String)
    (h : counter ∈ summaryCounters) (rows : List (Except DBError SubscriptionReport)) :
    (getSubscriptionReport (.ok rows)).toOption.map (fun report => counter report.Summary) =
      if allScanned rows = true then
        some (if scannedRows rows = [] then ""
          else Itoa (wrapInt (counterSum counter (scannedRows rows))))
      else none := by
  by_cases hall : allScanned rows = true
  · rw [if_pos hall]
    conv_lhs => rw [allScanned_eq_map_ok rows hall]
    rw [getSubscriptionReport_ok, ← foldl_counter_eq counter h]
    rfl
  · rw [if_neg hall]
    unfold getSubscriptionReport
    simp only
    rw [getSubscriptionReportRows_error rows (by simpa using hall)]
    rfl

theorem handlePolicyInstance_state (policy : Policy)
    (rows : List (Except DBError ComplianceRow)) :
    (handlePolicyInstance policy rows).Status.ComplianceState =
      if (scannedRows rows).any (fun row => decide (row.complianceInDB = "non_compliant")) = true
      then NonCompliant
      else if (scannedRows rows).length > 0 then Compliant else "" := by
  simp only [handlePolicyInstance, handlePolicyRows_eq, List.nil_append, Bool.false_or,
    List.length_map]
  split
  · rfl
  · split <;> rfl

/-! ## Row order -/

theorem any_perm {α : Type} (p : α → Bool) (rows rows' : List α) (h : rows.Perm rows') :
    rows.any p = rows'.any p := by
  rw [Bool.eq_iff_iff]
  simp only [List.any_eq_true]
  exact ⟨fun ⟨row, hrow, hp⟩ => ⟨row, h.mem_iff.1 hrow, hp⟩,
    fun ⟨row, hrow, hp⟩ => ⟨row, h.mem_iff.2 hrow, hp⟩⟩

theorem counterSum_perm (counter : SubscriptionReportSummary → String)
    (rows rows' : List SubscriptionReport) (h : rows.Perm rows') :
    counterSum counter rows = counterSum counter rows' :=
  List.Perm.sum_eq (List.Perm.map _ h)

/-- C8: for every sequence of observation rows of one identity and every permutation of it,
the merges agree on the permutation-invariant fields: the `NumberOfSelectedClusters` of
`getPlacementStatus`, each of the five summary counters of `getSubscriptionReport`, and the
overall `ComplianceState` of the policy `handlePolicy` submits. Rows that fail to scan are
allowed in the sequences. -/
theorem merge_permutation_invariant
    (placements placements' : List (Except DBError Placement))
    (reports reports' : List (Except DBError SubscriptionReport))
    (policy : Policy) (compliance compliance' : List (Except DBError ComplianceRow))
    (hplacements : placements.Perm placements') (hreports : reports.Perm reports')
    (hcompliance : compliance.Perm compliance') :
    (getPlacementStatus (.ok placements)).toOption.map
        (fun result => result.1.NumberOfSelectedClusters) =
      (getPlacementStatus (.ok placements')).toOption.map
        (fun result => result.1.NumberOfSelectedClusters) ∧
    (∀ counter ∈ summaryCounters,
      (getSubscriptionReport (.ok reports)).toOption.map
          (fun report => counter report.Summary) =
        (getSubscriptionReport (.ok reports')).toOption.map
          (fun report => counter report.Summary)) ∧
    (handlePolicyInstance policy compliance).Status.ComplianceState =
      (handlePolicyInstance policy compliance').Status.ComplianceState ∧
    (∀ k8sClient : Store Policy,
      (Store.patchedSince k8sClient (handlePolicy k8sClient policy compliance)).map
          (fun submitted => submitted.Status.ComplianceState) =
        (Store.patchedSince k8sClient (handlePolicy k8sClient policy compliance')).map
          (fun submitted => submitted.Status.ComplianceState)) := by
  have hstate : (handlePolicyInstance policy compliance).Status.ComplianceState =
      (handlePolicyInstance policy compliance').Status.ComplianceState := by
    rw [handlePolicyInstance_state, handlePolicyInstance_state,
      any_perm _ _ _ (scannedRows_perm _ _ hcompliance),
      (scannedRows_perm _ _ hcompliance).length_eq]
  refine ⟨?_, ?_, hstate, ?_⟩
  · rw [getPlacementStatus_number, getPlacementStatus_number,
      allScanned_perm _ _ hplacements,
      List.Perm.sum_eq (List.Perm.map _ (scannedRows_perm _ _ hplacements))]
  · intro counter hcounter
    rw [getSubscriptionReport_counter counter hcounter,
      getSubscriptionReport_counter counter hcounter, allScanned_perm _ _ hreports,
      counterSum_perm counter _ _ (scannedRows_perm _ _ hreports)]
    have hnil : scannedRows reports = [] ↔ scannedRows reports' = [] := by
      rw [← List.length_eq_zero, ← List.length_eq_zero,
        (scannedRows_perm _ _ hreports).length_eq]
    simp only [hnil]
  · intro k8sClient
    have hcalls := fun rows => Store.callsSince_append k8sClient
      (handlePolicy k8sClient policy rows) _
      (Store.Patch_calls k8sClient (handlePolicyInstance policy rows) policy)
    unfold Store.patchedSince
    rw [hcalls, hcalls]
    simp only [List.filterMap_cons, List.filterMap_nil, if_true, List.map_cons, List.map_nil,
      hstate]

/-- C8, on two rows of each kind and their swap. -/
theorem merge_permutation_invariant_witness :
    (getPlacementStatus
        (.ok [.ok { Status := { NumberOfSelectedClusters := 3 } },
              .ok { Status := { NumberOfSelectedClusters := 5 } }])).toOption.map
        (fun result => result.1.NumberOfSelectedClusters) =
      (getPlacementStatus
        (.ok [.ok { Status := { NumberOfSelectedClusters := 5 } },
              .ok { Status := { NumberOfSelectedClusters := 3 } }])).toOption.map
        (fun result => result.1.NumberOfSelectedClusters) ∧
    (getSubscriptionReport
        (.ok [.ok { Summary := { Deployed := "2" } },
              .ok { Summary := { Deployed := "x" } }])).toOption.map
        (fun report => report.Summary.Deployed) =
      (getSubscriptionReport
        (.ok [.ok { Summary := { Deployed := "x" } },
              .ok { Summary := { Deployed := "2" } }])).toOption.map
        (fun report => report.Summary.Deployed) ∧
    (handlePolicyInstance {}
        [.ok ⟨"c1", "h1", "non_compliant"⟩, .ok ⟨"c2", "h1", "compliant"⟩]).Status.ComplianceState =
      (handlePolicyInstance {}
        [.ok ⟨"c2", "h1", "compliant"⟩, .ok ⟨"c1", "h1", "non_compliant"⟩]).Status.ComplianceState := by
  have h := merge_permutation_invariant
    [.ok { Status := { NumberOfSelectedClusters := 3 } },
     .ok { Status := { NumberOfSelectedClusters := 5 } }]
    [.ok { Status := { NumberOfSelectedClusters := 5 } },
     .ok { Status := { NumberOfSelectedClusters := 3 } }]
    [.ok { Summary := { Deployed := "2" } }, .ok { Summary := { Deployed := "x" } }]
    [.ok { Summary := { Deployed := "x" } }, .ok { Summary := { Deployed := "2" } }]
    {}
    [.ok ⟨"c1", "h1", "non_compliant"⟩, .ok ⟨"c2", "h1", "compliant"⟩]
    [.ok ⟨"c2", "h1", "compliant"⟩, .ok ⟨"c1", "h1", "non_compliant"⟩]
    (List.Perm.swap _ _ _) (List.Perm.swap _ _ _) (List.Perm.swap _ _ _)
  exact ⟨h.1, h.2.1 (fun summary => summary.Deployed) (by simp [summaryCounters]), h.2.2.1⟩

/-! ## Reconciliation: which store errors are returned -/

theorem Store.Get_run {α : Type} [Resource α] (store : Store α) (key : ObjectKey) :
    ∃ result after, store.Get key = (result, after) ∧
      after.calls = store.calls ++ [⟨.get, key, none, none, getFailure result⟩] :=
  ⟨_, _, rfl, Store.Get_calls store key⟩

theorem Store.Patch_run {α : Type} [Resource α] (store : Store α) (modified original : α) :
    ∃ failure after, store.Patch modified original = (failure, after) ∧
      after.calls = store.calls ++
        [⟨.patch, objectKey modified, some modified, some original, failure⟩] :=
  ⟨_, _, rfl, Store.Patch_calls store modified original⟩

theorem Store.Create_run {α : Type} [Resource α] (store : Store α) (obj : α) :
    ∃ failure after, store.Create obj = (failure, after) ∧
      after.calls = store.calls ++ [⟨.create, objectKey obj, some obj, none, failure⟩] :=
  ⟨_, _, rfl, Store.Create_calls store obj⟩

theorem updatePlacementStatus_error_iff (k8sClient : Store Placement)
    (placementName placementNamespace : String) (placementStatus : PlacementStatus) :
    (updatePlacementStatus k8sClient placementName placementNamespace placementStatus).1.isSome =
      (Store.callsSince k8sClient
        (updatePlacementStatus k8sClient placementName placementNamespace
          placementStatus).2).any Call.failedOtherThanNotFound := by
  obtain ⟨result, afterGet, hget, hgetCalls⟩ :=
    Store.Get_run k8sClient { Name := placementName, Namespace := placementNamespace }
  unfold updatePlacementStatus
  rw [hget]
  cases result with
  | error err =>
      simp only
      cases err <;>
        simp [APIError.isNotFound, Store.callsSince, hgetCalls, Call.failedOtherThanNotFound,
          getFailure]
  | ok deployedPlacement =>
      simp only
      obtain ⟨failure, afterPatch, hpatch, hpatchCalls⟩ :=
        Store.Patch_run afterGet
          { deployedPlacement with
            Status := { deployedPlacement.Status with
              NumberOfSelectedClusters := placementStatus.NumberOfSelectedClusters } }
          deployedPlacement
      rw [hpatch]
      cases failure with
      | none =>
          simp [Store.callsSince, hpatchCalls, hgetCalls, Call.failedOtherThanNotFound,
            getFailure]
      | some err =>
          cases err <;>
            simp [APIError.isNotFound, Store.callsSince, hpatchCalls, hgetCalls,
              Call.failedOtherThanNotFound, getFailure]

theorem updatePlacementDecision_error_iff (k8sClient : Store PlacementDecision)
    (aggregatedPlacementDecision : PlacementDecision) :
    (updatePlacementDecision k8sClient aggregatedPlacementDecision).1.isSome =
      (Store.callsSince k8sClient
        (updatePlacementDecision k8sClient aggregatedPlacementDecision).2).any
        (fun call => call.failedOtherThanNotFound || call.failedCreate) := by
  obtain ⟨result, afterGet, hget, hgetCalls⟩ :=
    Store.Get_run k8sClient
      { Name := aggregatedPlacementDecision.ObjectMeta.Name,
        Namespace := aggregatedPlacementDecision.ObjectMeta.Namespace }
  unfold updatePlacementDecision
  rw [hget]
  cases result with
  | error err =>
      simp only
      obtain ⟨failure, afterCreate, hcreate, hcreateCalls⟩ :=
        Store.Create_run afterGet (Resource.setResourceVersion aggregatedPlacementDecision "")
      cases err with
      | notFound =>
          simp only [APIError.isNotFound, if_true, createK8sResource, hcreate]
          cases failure with
          | none =>
              simp [Store.callsSince, hcreateCalls, hgetCalls, Call.failedOtherThanNotFound,
                Call.failedCreate, getFailure, APIError.isNotFound]
          | some err =>
              simp [Store.callsSince, hcreateCalls, hgetCalls, Call.failedOtherThanNotFound,
                Call.failedCreate, getFailure, APIError.isNotFound]
      | alreadyExists =>
          simp [APIError.isNotFound, Store.callsSince, hgetCalls, Call.failedOtherThanNotFound,
            getFailure]
      | conflict =>
          simp [APIError.isNotFound, Store.callsSince, hgetCalls, Call.failedOtherThanNotFound,
            getFailure]
      | other reason =>
          simp [APIError.isNotFound, Store.callsSince, hgetCalls, Call.failedOtherThanNotFound,
            getFailure]
  | ok deployedPlacementDecision =>
      simp only
      obtain ⟨failure, afterPatch, hpatch, hpatchCalls⟩ :=
        Store.Patch_run afterGet
          { deployedPlacementDecision with
            Status := { deployedPlacementDecision.Status with
              Decisions := aggregatedPlacementDecision.Status.Decisions } }
          deployedPlacementDecision
      rw [hpatch]
      cases failure with
      | none =>
          simp [Store.callsSince, hpatchCalls, hgetCalls, Call.failedOtherThanNotFound,
            Call.failedCreate, getFailure]
      | some err =>
          cases err <;>
            simp [APIError.isNotFound, Store.callsSince, hpatchCalls, hgetCalls,
              Call.failedOtherThanNotFound, Call.failedCreate, getFailure]

theorem patchSubscriptionReport_run (k8sClient : Store SubscriptionReport)
    (subscriptionReport originalSubscriptionReport : SubscriptionReport) :
    ∃ failure,
      (patchSubscriptionReport k8sClient subscriptionReport originalSubscriptionReport).2.calls =
        k8sClient.calls ++
          [⟨.patch, objectKey subscriptionReport, some subscriptionReport,
            some originalSubscriptionReport, failure⟩] ∧
      (patchSubscriptionReport k8sClient subscriptionReport originalSubscriptionReport).1.isSome =
        (match failure with
          | some err => !err.isNotFound
          | none => false) := by
  obtain ⟨failure, afterPatch, hpatch, hpatchCalls⟩ :=
    Store.Patch_run k8sClient subscriptionReport originalSubscriptionReport
  refine ⟨failure, ?_, ?_⟩
  · unfold patchSubscriptionReport
    rw [hpatch]
    cases failure with
    | none => exact hpatchCalls
    | some err => cases err <;> simpa [APIError.isNotFound] using hpatchCalls
  · unfold patchSubscriptionReport
    rw [hpatch]
    cases failure with
    | none => rfl
    | some err => cases err <;> rfl

theorem updateSubscriptionReport_error_iff (k8sClient : Store SubscriptionReport)
    (subscriptionName subscriptionNamespace : String) (subscriptionReport : SubscriptionReport) :
    (updateSubscriptionReport k8sClient subscriptionName subscriptionNamespace
        subscriptionReport).1.isSome =
      (Store.callsSince k8sClient
        (updateSubscriptionReport k8sClient subscriptionName subscriptionNamespace
          subscriptionReport).2).any
        (fun call => (call.failedOtherThanNotFound && !call.failedGet) || call.failedCreate) := by
  obtain ⟨result, afterGet, hget, hgetCalls⟩ :=
    Store.Get_run k8sClient { Name := subscriptionName, Namespace := subscriptionNamespace }
  unfold updateSubscriptionReport
  rw [hget]
  cases result with
  | error err =>
      simp only
      by_cases hnf : err.isNotFound = true
      · simp only [hnf, if_true]
        obtain ⟨failure, afterCreate, hcreate, hcreateCalls⟩ :=
          Store.Create_run afterGet
            { subscriptionReport with
              ObjectMeta := { subscriptionReport.ObjectMeta with
                Name := subscriptionName
                Namespace := subscriptionNamespace
                Labels :=
                  [(AnnotationHosting, subscriptionNamespace ++ "." ++ subscriptionName)] } }
        rw [hcreate]
        cases failure with
        | some cerr =>
            simp [Store.callsSince, hcreateCalls, hgetCalls, Call.failedOtherThanNotFound,
              Call.failedCreate, Call.failedGet, getFailure, hnf]
        | none =>
            simp only
            obtain ⟨pfailure, hcalls, herr⟩ := patchSubscriptionReport_run afterCreate
              { subscriptionReport with
                ObjectMeta := { subscriptionReport.ObjectMeta with
                  Name := subscriptionName
                  Namespace := subscriptionNamespace
                  Labels :=
                    [(AnnotationHosting, subscriptionNamespace ++ "." ++ subscriptionName)] } }
              {}
            rw [herr]
            cases pfailure <;>
              simp [Store.callsSince, hcalls, hcreateCalls, hgetCalls,
                Call.failedOtherThanNotFound, Call.failedCreate, Call.failedGet, getFailure, hnf]
      · have hnf' : err.isNotFound = false := by simpa using hnf
        simp only [hnf', Bool.false_eq_true, if_false]
        obtain ⟨pfailure, hcalls, herr⟩ :=
          patchSubscriptionReport_run afterGet subscriptionReport {}
        rw [herr]
        cases pfailure <;>
          simp [Store.callsSince, hcalls, hgetCalls, Call.failedOtherThanNotFound,
            Call.failedCreate, Call.failedGet, getFailure, hnf']
  | ok originalSubscriptionReport =>
      simp only
      obtain ⟨pfailure, hcalls, herr⟩ :=
        patchSubscriptionReport_run afterGet subscriptionReport originalSubscriptionReport
      rw [herr]
      cases pfailure <;>
        simp [Store.callsSince, hcalls, hgetCalls, Call.failedOtherThanNotFound,
          Call.failedCreate, Call.failedGet, getFailure]

theorem any_congr_of_mem {α : Type} (p q : α → Bool) (l : List α)
    (h : ∀ x ∈ l, p x = q x) : l.any p = l.any q := by
  induction l with
  | nil => rfl
  | cons x xs ih =>
      simp only [List.any_cons]
      rw [h x (List.mem_cons_self _ _), ih (fun y hy => h y (List.mem_cons_of_mem _ hy))]

/-- C10, as amended: over the resource store as explicit state, `updatePlacementStatus`
returns an error exactly when its get or its status patch fails with an error other than
not-found; `updatePlacementDecision` returns an error exactly when its get or its status
patch fails with an error other than not-found or its create fails with any error,
not-found included; and so does `updateSubscriptionReport` on every run whose get does not
fail with an error other than not-found. A not-found from get or from patch never yields an
error. -/
theorem update_returns_error_iff
    (placements : Store Placement) (placementName placementNamespace : String)
    (placementStatus : PlacementStatus)
    (decisions : Store PlacementDecision) (aggregatedPlacementDecision : PlacementDecision)
    (reports : Store SubscriptionReport) (subscriptionName subscriptionNamespace : String)
    (subscriptionReport : SubscriptionReport)
    (hget : (Store.callsSince reports
      (updateSubscriptionReport reports subscriptionName subscriptionNamespace
        subscriptionReport).2).any Call.failedGet = false) :
    (updatePlacementStatus placements placementName placementNamespace
        placementStatus).1.isSome =
      (Store.callsSince placements
        (updatePlacementStatus placements placementName placementNamespace
          placementStatus).2).any Call.failedOtherThanNotFound ∧
    (updatePlacementDecision decisions aggregatedPlacementDecision).1.isSome =
      (Store.callsSince decisions
        (updatePlacementDecision decisions aggregatedPlacementDecision).2).any
        (fun call => call.failedOtherThanNotFound || call.failedCreate) ∧
    (updateSubscriptionReport reports subscriptionName subscriptionNamespace
        subscriptionReport).1.isSome =
      (Store.callsSince reports
        (updateSubscriptionReport reports subscriptionName subscriptionNamespace
          subscriptionReport).2).any
        (fun call => call.failedOtherThanNotFound || call.failedCreate) := by
  refine ⟨updatePlacementStatus_error_iff _ _ _ _, updatePlacementDecision_error_iff _ _, ?_⟩
  rw [updateSubscriptionReport_error_iff]
  apply any_congr_of_mem
  intro call hcall
  have hcallGet : call.failedGet = false := by
    cases h : call.failedGet with
    | false => rfl
    | true =>
        have : (Store.callsSince reports
            (updateSubscriptionReport reports subscriptionName subscriptionNamespace
              subscriptionReport).2).any Call.failedGet = true :=
          List.any_eq_true.2 ⟨call, hcall, h⟩
        rw [hget] at this
        exact absurd this (by decide)
  simp [hcallGet]

/-- C10, on a placement whose status patch conflicts, a decision whose create reports
not-found, and a report created and then gone before its status patch. -/
theorem update_returns_error_iff_witness :
    (updatePlacementStatus
        { objects := [{ ObjectMeta := { Name := "p", Namespace := "ns" } }],
          faults := [none, some .conflict] } "p" "ns"
        { NumberOfSelectedClusters := 10 }).1.isSome = true ∧
    (updatePlacementDecision { faults := [none, some .notFound] }
        { ObjectMeta := { Name := "p-decision-1", Namespace := "ns" } }).1.isSome = true ∧
    (updateSubscriptionReport { faults := [none, none, some .notFound] } "s" "ns"
        {}).1.isSome = false := by
  have h := update_returns_error_iff
    { objects := [{ ObjectMeta := { Name := "p", Namespace := "ns" } }],
      faults := [none, some .conflict] } "p" "ns" { NumberOfSelectedClusters := 10 }
    { faults := [none, some .notFound] }
    { ObjectMeta := { Name := "p-decision-1", Namespace := "ns" } }
    { faults := [none, none, some .notFound] } "s" "ns" {} (by decide)
  refine ⟨?_, ?_, ?_⟩
  · rw [h.1]; decide
  · rw [h.2.1]; decide
  · rw [h.2.2]; decide

/-- C10 as stated fails on a create that fails with not-found (the namespace is gone):
`updatePlacementDecision` returns the error although no store call failed with an error
other than not-found. -/
theorem updatePlacementDecision_create_not_found :
    (updatePlacementDecision { faults := [none, some .notFound] }
        { ObjectMeta := { Name := "p-decision-1", Namespace := "ns" } }).1 =
      some (.create .notFound) ∧
    (Store.callsSince { faults := [none, some .notFound] }
        (updatePlacementDecision { faults := [none, some .notFound] }
          { ObjectMeta := { Name := "p-decision-1", Namespace := "ns" } }).2).map
        (fun call => (call.verb, call.failure)) =
      [(.get, some .notFound), (.create, some .notFound)] ∧
    (updatePlacementDecision { faults := [none, some .notFound] }
        { ObjectMeta := { Name := "p-decision-1", Namespace := "ns" } }).1.isSome ≠
      (Store.callsSince { faults := [none, some .notFound] }
        (updatePlacementDecision { faults := [none, some .notFound] }
          { ObjectMeta := { Name := "p-decision-1", Namespace := "ns" } }).2).any
        Call.failedOtherThanNotFound := by
  decide

/-- The get of `updateSubscriptionReport` that fails with an error other than not-found:
the function goes on to the status patch of the unnamed report, whose not-found it takes
for success, and returns no error. -/
theorem updateSubscriptionReport_get_error_not_returned :
    (updateSubscriptionReport { faults := [some (.other "timeout")] } "s" "ns" {}).1 = none ∧
    (Store.callsSince { faults := [some (.other "timeout")] }
        (updateSubscriptionReport { faults := [some (.other "timeout")] } "s" "ns" {}).2).map
        (fun call => (call.verb, call.failure)) =
      [(.get, some (.other "timeout")), (.patch, some .notFound)] := by
  decide

/-! ## Reconciliation on zero rows -/

theorem updateSubscriptionReport_verbs (k8sClient : Store SubscriptionReport)
    (subscriptionName subscriptionNamespace : String) (subscriptionReport : SubscriptionReport) :
    (Store.callsSince k8sClient
        (updateSubscriptionReport k8sClient subscriptionName subscriptionNamespace
          subscriptionReport).2).map (fun call => call.verb) ∈
      [[Verb.get, Verb.patch], [Verb.get, Verb.create], [Verb.get, Verb.create, Verb.patch]] := by
  obtain ⟨result, afterGet, hget, hgetCalls⟩ :=
    Store.Get_run k8sClient { Name := subscriptionName, Namespace := subscriptionNamespace }
  unfold updateSubscriptionReport
  rw [hget]
  cases result with
  | error err =>
      simp only
      by_cases hnf : err.isNotFound = true
      · simp only [hnf, if_true]
        obtain ⟨failure, afterCreate, hcreate, hcreateCalls⟩ :=
          Store.Create_run afterGet
            { subscriptionReport with
              ObjectMeta := { subscriptionReport.ObjectMeta with
                Name := subscriptionName
                Namespace := subscriptionNamespace
                Labels :=
                  [(AnnotationHosting, subscriptionNamespace ++ "." ++ subscriptionName)] } }
        rw [hcreate]
        cases failure with
        | some cerr => simp [Store.callsSince, hcreateCalls, hgetCalls]
        | none =>
            simp only
            obtain ⟨pfailure, hcalls, _⟩ := patchSubscriptionReport_run afterCreate
              { subscriptionReport with
                ObjectMeta := { subscriptionReport.ObjectMeta with
                  Name := subscriptionName
                  Namespace := subscriptionNamespace
                  Labels :=
                    [(AnnotationHosting, subscriptionNamespace ++ "." ++ subscriptionName)] } }
              {}
            simp [Store.callsSince, hcalls, hcreateCalls, hgetCalls]
      · have hnf' : err.isNotFound = false := by simpa using hnf
        simp only [hnf', Bool.false_eq_true, if_false]
        obtain ⟨pfailure, hcalls, _⟩ :=
          patchSubscriptionReport_run afterGet subscriptionReport {}
        simp [Store.callsSince, hcalls, hgetCalls]
  | ok originalSubscriptionReport =>
      simp only
      obtain ⟨pfailure, hcalls, _⟩ :=
        patchSubscriptionReport_run afterGet subscriptionReport originalSubscriptionReport
      simp [Store.callsSince, hcalls, hgetCalls]

/-- C9, as amended: when the observation query of an identity returns zero rows, none of
`handlePolicy`, `handlePlacementStatus` and `handleSubscriptionReport` issues a delete;
`handlePlacementStatus` is a no-op on the resource store (no call at all, the store as it
was); `handlePolicy` issues one call, the status patch that submits the policy with an empty
per-cluster list and the unset overall state; `handleSubscriptionReport` issues a get
followed by a create, by a status patch, or by both. -/
theorem zero_rows_handlers
    (placements : Store Placement) (placementName placementNamespace : String)
    (policies : Store Policy) (policy : Policy)
    (reports : Store SubscriptionReport) (subscriptionName subscriptionNamespace : String) :
    (handlePlacementStatus placements (.ok []) placementName placementNamespace = placements ∧
      leavesStoreUntouched placements
        (handlePlacementStatus placements (.ok []) placementName placementNamespace) = true) ∧
    (Store.callsSince policies (handlePolicy policies policy [])).map
        (fun call => (call.verb, call.submitted)) =
      [(Verb.patch,
        some { policy with
          Status := { policy.Status with Status := [], ComplianceState := "" } })] ∧
    (Store.callsSince reports
        (handleSubscriptionReport reports (.ok []) subscriptionName
          subscriptionNamespace)).map (fun call => call.verb) ∈
      [[Verb.get, Verb.patch], [Verb.get, Verb.create], [Verb.get, Verb.create, Verb.patch]] ∧
    (∀ call ∈ Store.callsSince policies (handlePolicy policies policy []),
      call.verb ≠ Verb.delete) ∧
    (∀ call ∈ Store.callsSince reports
        (handleSubscriptionReport reports (.ok []) subscriptionName subscriptionNamespace),
      call.verb ≠ Verb.delete) := by
  have hplacement :
      handlePlacementStatus placements (.ok []) placementName placementNamespace =
        placements := rfl
  have hpolicy := Store.callsSince_append policies (handlePolicy policies policy []) _
    (Store.Patch_calls policies (handlePolicyInstance policy []) policy)
  have hreport := updateSubscriptionReport_verbs reports subscriptionName
    subscriptionNamespace {}
  refine ⟨⟨hplacement, ?_⟩, ?_, hreport, ?_, ?_⟩
  · rw [hplacement]
    simp [leavesStoreUntouched, Store.callsSince]
  · rw [hpolicy]
    rfl
  · intro call hcall
    rw [hpolicy] at hcall
    simp only [List.mem_singleton] at hcall
    rw [hcall]
    exact Verb.noConfusion
  · intro call hcall hdelete
    have hmem : call.verb ∈ (Store.callsSince reports
        (handleSubscriptionReport reports (.ok []) subscriptionName
          subscriptionNamespace)).map (fun call => call.verb) :=
      List.mem_map.2 ⟨call, hcall, rfl⟩
    rw [hdelete] at hmem
    have hverbs : (Store.callsSince reports
        (handleSubscriptionReport reports (.ok []) subscriptionName
          subscriptionNamespace)).map (fun call => call.verb) ∈
        [[Verb.get, Verb.patch], [Verb.get, Verb.create],
          [Verb.get, Verb.create, Verb.patch]] := hreport
    simp only [List.mem_cons, List.mem_singleton, List.not_mem_nil, or_false] at hverbs
    rcases hverbs with h | h | h <;> rw [h] at hmem <;> revert hmem <;> decide

/-- C9 as stated fails for the policy and for the subscription report: on zero rows
`handlePolicy` patches the published policy, whose status it empties, and
`handleSubscriptionReport` creates an empty report where none was published. -/
theorem zero_rows_not_no_op :
    leavesStoreUntouched
        { objects := [{ ObjectMeta := { Name := "p", Namespace := "ns", UID := "u1" }
                        Status := { Status := [⟨"Compliant", "c1", "h1"⟩]
                                    ComplianceState := "Compliant" } }] }
        (handlePolicy
          { objects := [{ ObjectMeta := { Name := "p", Namespace := "ns", UID := "u1" }
                          Status := { Status := [⟨"Compliant", "c1", "h1"⟩]
                                      ComplianceState := "Compliant" } }] }
          { ObjectMeta := { Name := "p", Namespace := "ns", UID := "u1" }
            Status := { Status := [⟨"Compliant", "c1", "h1"⟩]
                        ComplianceState := "Compliant" } }
          []) = false ∧
    (handlePolicy
        { objects := [{ ObjectMeta := { Name := "p", Namespace := "ns", UID := "u1" }
                        Status := { Status := [⟨"Compliant", "c1", "h1"⟩]
                                    ComplianceState := "Compliant" } }] }
        { ObjectMeta := { Name := "p", Namespace := "ns", UID := "u1" }
          Status := { Status := [⟨"Compliant", "c1", "h1"⟩]
                      ComplianceState := "Compliant" } }
        []).objects =
      [{ ObjectMeta := { Name := "p", Namespace := "ns", UID := "u1" } }] ∧
    leavesStoreUntouched {}
      (handleSubscriptionReport {} (.ok []) "s" "ns") = false ∧
    (handleSubscriptionReport {} (.ok []) "s" "ns").objects =
      [{ ObjectMeta := { Name := "s", Namespace := "ns"
                         Labels := [(AnnotationHosting, "ns.s")] } }] := by
  decide

/-! ## Malformed rows -/

theorem handlePolicyRows_scanned (rows : List (Except DBError ComplianceRow))
    (statuses : List CompliancePerClusterStatus) (hasNonCompliantClusters : Bool) :
    handlePolicyRows rows statuses hasNonCompliantClusters =
      handlePolicyRows ((scannedRows rows).map Except.ok) statuses hasNonCompliantClusters := by
  rw [handlePolicyRows_eq, handlePolicyRows_eq, scannedRows_map_ok]

theorem handlePolicyInstance_scanned (policy : Policy)
    (rows : List (Except DBError ComplianceRow)) :
    handlePolicyInstance policy rows =
      handlePolicyInstance policy ((scannedRows rows).map Except.ok) := by
  unfold handlePolicyInstance
  rw [handlePolicyRows_scanned]

theorem getPlacementStatusRows_scan_error (rows : List (Except DBError Placement))
    (err : DBError) (h : firstScanError rows = some err) (placementStatus : PlacementStatus)
    (statusEntriesFound : Bool) :
    getPlacementStatusRows rows placementStatus statusEntriesFound = .error (.scan err) := by
  induction rows generalizing placementStatus statusEntriesFound with
  | nil => simp [firstScanError] at h
  | cons row rest ih =>
      cases row with
      | error e =>
          simp only [firstScanError, Option.some.injEq] at h
          simp only [getPlacementStatusRows, h]
      | ok value =>
          simp only [getPlacementStatusRows]
          exact ih (by simpa [firstScanError] using h) _ _

theorem getAggregatedPlacementDecisionsRows_scan_error (placementDecisionName : String)
    (rows : List (Except DBError PlacementDecision)) (err : DBError)
    (h : firstScanError rows = some err) (aggregated : Option PlacementDecision) :
    getAggregatedPlacementDecisionsRows placementDecisionName rows aggregated =
      .error (.scan err) := by
  induction rows generalizing aggregated with
  | nil => simp [firstScanError] at h
  | cons row rest ih =>
      cases row with
      | error e =>
          simp only [firstScanError, Option.some.injEq] at h
          simp only [getAggregatedPlacementDecisionsRows, h]
      | ok value =>
          have hrest : firstScanError rest = some err := by simpa [firstScanError] using h
          simp only [getAggregatedPlacementDecisionsRows]
          split
          · exact ih hrest _
          · cases aggregated with
            | none => exact ih hrest _
            | some current => exact ih hrest _

theorem getSubscriptionReportRows_scan_error (rows : List (Except DBError SubscriptionReport))
    (err : DBError) (h : firstScanError rows = some err)
    (subscriptionReport : SubscriptionReport) :
    getSubscriptionReportRows rows subscriptionReport = .error (.scan err) := by
  induction rows generalizing subscriptionReport with
  | nil => simp [firstScanError] at h
  | cons row rest ih =>
      cases row with
      | error e =>
          simp only [firstScanError, Option.some.injEq] at h
          simp only [getSubscriptionReportRows, h]
      | ok value =>
          simp only [getSubscriptionReportRows]
          exact ih (by simpa [firstScanError] using h) _

/-- C11, as amended: on a sequence of compliance rows some of which fail to scan,
`handlePolicy` does what it does on the sequence with the malformed rows removed, and never
aborts because of a malformed row. On a sequence some row of which fails to scan,
`getPlacementStatus`, `getAggregatedPlacementDecisions` and `getSubscriptionReport` stop at
the first malformed row: each returns the error that wraps the scan error of that row and no
aggregate, and `handlePlacementStatus` and `handleSubscriptionReport` then leave the resource
store as it was. -/
theorem malformed_rows
    (policies : Store Policy) (policy : Policy)
    (compliance : List (Except DBError ComplianceRow))
    (placements : List (Except DBError Placement)) (placementError : DBError)
    (decisions : List (Except DBError PlacementDecision)) (decisionError : DBError)
    (placementDecisionName : String)
    (reports : List (Except DBError SubscriptionReport)) (reportError : DBError)
    (hplacements : firstScanError placements = some placementError)
    (hdecisions : firstScanError decisions = some decisionError)
    (hreports : firstScanError reports = some reportError) :
    handlePolicy policies policy compliance =
      handlePolicy policies policy ((scannedRows compliance).map Except.ok) ∧
    getPlacementStatus (.ok placements) = .error (.scan placementError) ∧
    getAggregatedPlacementDecisions (.ok decisions) placementDecisionName =
      .error (.scan decisionError) ∧
    getSubscriptionReport (.ok reports) = .error (.scan reportError) ∧
    (∀ (k8sClient : Store Placement) (placementName placementNamespace : String),
      handlePlacementStatus k8sClient (.ok placements) placementName placementNamespace =
        k8sClient) ∧
    (∀ (k8sClient : Store SubscriptionReport) (subscriptionName subscriptionNamespace : String),
      handleSubscriptionReport k8sClient (.ok reports) subscriptionName subscriptionNamespace =
        k8sClient) := by
  have hplacement : getPlacementStatus (.ok placements) = .error (.scan placementError) :=
    getPlacementStatusRows_scan_error placements placementError hplacements {} false
  have hreport : getSubscriptionReport (.ok reports) = .error (.scan reportError) :=
    getSubscriptionReportRows_scan_error reports reportError hreports {}
  refine ⟨?_, hplacement, ?_, hreport, ?_, ?_⟩
  · unfold handlePolicy
    rw [← handlePolicyInstance_scanned]
  · exact getAggregatedPlacementDecisionsRows_scan_error placementDecisionName decisions
      decisionError hdecisions none
  · intro k8sClient placementName placementNamespace
    unfold handlePlacementStatus
    rw [hplacement]
  · intro k8sClient subscriptionName subscriptionNamespace
    unfold handleSubscriptionReport
    rw [hreport]

/-- C11, on sequences of three rows whose second row is malformed. -/
theorem malformed_rows_witness :
    handlePolicy {} {}
        [.ok ⟨"c1", "h1", "compliant"⟩, .error "malformed", .ok ⟨"c2", "h2", "non_compliant"⟩] =
      handlePolicy {} {}
        [.ok ⟨"c1", "h1", "compliant"⟩, .ok ⟨"c2", "h2", "non_compliant"⟩] ∧
    getPlacementStatus
        (.ok [.ok { Status := { NumberOfSelectedClusters := 3 } }, .error "malformed",
              .ok { Status := { NumberOfSelectedClusters := 5 } }]) =
      .error (.scan "malformed") ∧
    getAggregatedPlacementDecisions
        (.ok [.ok { ObjectMeta := { Labels := [(PlacementLabel, "p")] } }, .error "malformed",
              .ok { ObjectMeta := { Labels := [(PlacementLabel, "p")] } }]) "p" =
      .error (.scan "malformed") ∧
    getSubscriptionReport
        (.ok [.ok { Summary := { Deployed := "2" } }, .error "malformed",
              .ok { Summary := { Deployed := "1" } }]) =
      .error (.scan "malformed") := by
  have h := malformed_rows {} {}
    [.ok ⟨"c1", "h1", "compliant"⟩, .error "malformed", .ok ⟨"c2", "h2", "non_compliant"⟩]
    [.ok { Status := { NumberOfSelectedClusters := 3 } }, .error "malformed",
     .ok { Status := { NumberOfSelectedClusters := 5 } }] "malformed"
    [.ok { ObjectMeta := { Labels := [(PlacementLabel, "p")] } }, .error "malformed",
     .ok { ObjectMeta := { Labels := [(PlacementLabel, "p")] } }] "malformed" "p"
    [.ok { Summary := { Deployed := "2" } }, .error "malformed",
     .ok { Summary := { Deployed := "1" } }] "malformed"
    rfl rfl rfl
  exact ⟨h.1, h.2.1, h.2.2.1, h.2.2.2.1⟩

/-- C11 as stated fails for the three merges that return an error: with a malformed second
row each of them returns the scan error, whereas on the sequence without that row it
returns an aggregate. -/
theorem malformed_row_aborts :
    getPlacementStatus
        (.ok [.ok { Status := { NumberOfSelectedClusters := 3 } }, .error "malformed",
              .ok { Status := { NumberOfSelectedClusters := 5 } }]) =
      .error (.scan "malformed") ∧
    getPlacementStatus
        (.ok [.ok { Status := { NumberOfSelectedClusters := 3 } },
              .ok { Status := { NumberOfSelectedClusters := 5 } }]) =
      .ok ({ NumberOfSelectedClusters := 8 }, true) ∧
    getAggregatedPlacementDecisions
        (.ok [.ok { ObjectMeta := { Name := "p-decision-1", Labels := [(PlacementLabel, "p")] }
                    Status := { Decisions := [⟨"cluster1", ""⟩] } },
              .error "malformed"]) "p" =
      .error (.scan "malformed") ∧
    getAggregatedPlacementDecisions
        (.ok [.ok { ObjectMeta := { Name := "p-decision-1", Labels := [(PlacementLabel, "p")] }
                    Status := { Decisions := [⟨"cluster1", ""⟩] } }]) "p" =
      .ok (some { ObjectMeta := { Name := "p-decision-1", Labels := [(PlacementLabel, "p")] }
                  Status := { Decisions := [⟨"cluster1", ""⟩] } }) ∧
    getSubscriptionReport
        (.ok [.ok { Summary := { Deployed := "2" } }, .error "malformed"]) =
      .error (.scan "malformed") ∧
    (getSubscriptionReport (.ok [.ok { Summary := { Deployed := "2" } }])).toOption.map
        (fun report => report.Summary.Deployed) = some "2" := by
  decide

/-! ## The objects of the store -/

theorem Store.Get_ok {α : Type} [Resource α] (store after : Store α) (key : ObjectKey)
    (obj : α) (h : store.Get key = (.ok obj, after)) :
    store.find key = some obj ∧ after.objects = store.objects ∧
      after.faults = store.nextFault.2 := by
  unfold Store.Get at h
  rcases hfault : store.nextFault with ⟨_ | err, faults⟩
  · rw [hfault] at h
    cases hfind : store.find key with
    | none => rw [hfind] at h; simp at h
    | some found =>
        rw [hfind] at h
        simp only [Prod.mk.injEq, Except.ok.injEq] at h
        rw [← h.1, ← h.2]
        exact ⟨rfl, rfl, rfl⟩
  · rw [hfault] at h
    simp at h

theorem Store.Get_objects {α : Type} [Resource α] (store : Store α) (key : ObjectKey) :
    (store.Get key).2.objects = store.objects := by
  unfold Store.Get
  rcases store.nextFault with ⟨_ | err, faults⟩
  · cases store.find key <;> rfl
  · rfl

theorem Store.Get_of_find {α : Type} [Resource α] (store : Store α) (key : ObjectKey)
    (obj : α) (hfault : store.nextFault.1 = none) (hfind : store.find key = some obj) :
    (store.Get key).1 = .ok obj := by
  unfold Store.Get
  rcases hnext : store.nextFault with ⟨_ | err, faults⟩
  · simp only [hfind]
  · rw [hnext] at hfault
    simp at hfault

theorem Store.Patch_none {α : Type} [Resource α] (store after : Store α) (modified original : α)
    (h : store.Patch modified original = (none, after)) :
    after.objects =
      store.objects.map (fun stored =>
        if objectKey stored = objectKey modified then
          Resource.applyStatusPatch original modified stored
        else stored) := by
  unfold Store.Patch at h
  rcases hfault : store.nextFault with ⟨_ | err, faults⟩
  · rw [hfault] at h
    cases hfind : store.find (objectKey modified) with
    | none => rw [hfind] at h; simp at h
    | some found =>
        rw [hfind] at h
        simp only [Prod.mk.injEq, true_and] at h
        rw [← h]
        rfl
  · rw [hfault] at h
    simp at h

theorem Store.Patch_self_objects {α : Type} [Resource α] (store : Store α) (obj : α)
    (hself : ∀ stored : α, Resource.applyStatusPatch obj obj stored = stored) :
    (store.Patch obj obj).2.objects = store.objects := by
  unfold Store.Patch
  rcases store.nextFault with ⟨_ | err, faults⟩
  · cases store.find (objectKey obj) with
    | none => rfl
    | some found =>
        simp only [Store.record, hself, ite_self]
        exact List.map_id _
  · rfl

theorem Store.find_key {α : Type} [Resource α] (store : Store α) (key : ObjectKey) (obj : α)
    (h : store.find key = some obj) : objectKey obj = key := by
  unfold Store.find at h
  have := List.find?_some h
  simpa using this

theorem Store.find_of_objects_map {α : Type} [Resource α] (store after : Store α)
    (key : ObjectKey) (f : α → α) (hobjects : after.objects = store.objects.map f)
    (hkey : ∀ obj, objectKey (f obj) = objectKey obj) :
    after.find key = (store.find key).map f := by
  unfold Store.find
  rw [hobjects]
  simp only [List.find?_map]
  congr 2
  funext obj
  simp [Function.comp, hkey]

theorem Store.find_of_objects_eq {α : Type} [Resource α] (store after : Store α)
    (key : ObjectKey) (hobjects : after.objects = store.objects) :
    after.find key = store.find key := by
  unfold Store.find
  rw [hobjects]

/-! ## Reconciling the same aggregate twice -/

theorem placement_applyStatusPatch_self (obj stored : Placement) :
    Resource.applyStatusPatch obj obj stored = stored := by
  cases stored with
  | mk objectMeta spec status =>
      cases status
      simp [Resource.applyStatusPatch, patchedField]

theorem placementDecision_applyStatusPatch_self (obj stored : PlacementDecision) :
    Resource.applyStatusPatch obj obj stored = stored := by
  cases stored with
  | mk objectMeta status =>
      cases status
      simp [Resource.applyStatusPatch, patchedField]

theorem desiredPlacement_idem (deployedPlacement : Placement)
    (placementStatus : PlacementStatus) :
    desiredPlacement (desiredPlacement deployedPlacement placementStatus) placementStatus =
      desiredPlacement deployedPlacement placementStatus := rfl

theorem desiredPlacementDecision_idem
    (deployedPlacementDecision aggregatedPlacementDecision : PlacementDecision) :
    desiredPlacementDecision
        (desiredPlacementDecision deployedPlacementDecision aggregatedPlacementDecision)
        aggregatedPlacementDecision =
      desiredPlacementDecision deployedPlacementDecision aggregatedPlacementDecision := rfl

theorem placement_applyStatusPatch_desired (read : Placement)
    (placementStatus : PlacementStatus) :
    Resource.applyStatusPatch read (desiredPlacement read placementStatus) read =
      desiredPlacement read placementStatus := by
  cases read with
  | mk objectMeta spec status =>
      cases status with
      | mk number conditions =>
          simp only [Resource.applyStatusPatch, patchedField, desiredPlacement, if_true]
          by_cases h : placementStatus.NumberOfSelectedClusters = number
          · simp [h]
          · simp [h]

theorem placementDecision_applyStatusPatch_desired (read aggregated : PlacementDecision) :
    Resource.applyStatusPatch read (desiredPlacementDecision read aggregated) read =
      desiredPlacementDecision read aggregated := by
  cases read with
  | mk objectMeta status =>
      cases status with
      | mk decisions =>
          simp only [Resource.applyStatusPatch, patchedField, desiredPlacementDecision]
          by_cases h : aggregated.Status.Decisions = decisions
          · simp [h]
          · simp [h]

theorem updatePlacementStatus_store (k8sClient : Store Placement)
    (placementName placementNamespace : String) (placementStatus : PlacementStatus) :
    (updatePlacementStatus k8sClient placementName placementNamespace placementStatus).2 =
      match k8sClient.Get { Name := placementName, Namespace := placementNamespace } with
      | (.error _, afterGet) => afterGet
      | (.ok read, afterGet) =>
          (afterGet.Patch (desiredPlacement read placementStatus) read).2 := by
  unfold updatePlacementStatus
  rcases k8sClient.Get { Name := placementName, Namespace := placementNamespace } with
    ⟨_ | read, afterGet⟩
  · simp only
    split <;> rfl
  · simp only [desiredPlacement]
    rcases afterGet.Patch _ read with ⟨_ | err, afterPatch⟩
    · rfl
    · simp only
      split <;> rfl

theorem updatePlacementDecision_store_of_found (k8sClient afterGet : Store PlacementDecision)
    (aggregatedPlacementDecision read : PlacementDecision)
    (hget : k8sClient.Get { Name := aggregatedPlacementDecision.ObjectMeta.Name,
                            Namespace := aggregatedPlacementDecision.ObjectMeta.Namespace } =
      (.ok read, afterGet)) :
    (updatePlacementDecision k8sClient aggregatedPlacementDecision).2 =
      (afterGet.Patch (desiredPlacementDecision read aggregatedPlacementDecision) read).2 := by
  unfold updatePlacementDecision
  rw [hget]
  simp only [desiredPlacementDecision]
  rcases afterGet.Patch _ read with ⟨_ | err, afterPatch⟩
  · rfl
  · simp only
    split <;> rfl

theorem updatePlacementStatus_first (k8sClient : Store Placement)
    (placementName placementNamespace : String) (placementStatus : PlacementStatus)
    (hfirst : outcomesSince k8sClient
      (updatePlacementStatus k8sClient placementName placementNamespace placementStatus).2 =
        [(.get, none), (.patch, none)]) :
    ∃ read afterGet,
      k8sClient.Get { Name := placementName, Namespace := placementNamespace } =
        (.ok read, afterGet) ∧
      afterGet.Patch (desiredPlacement read placementStatus) read =
        (none,
          (updatePlacementStatus k8sClient placementName placementNamespace
            placementStatus).2) := by
  obtain ⟨result, afterGet, hget, hgetCalls⟩ :=
    Store.Get_run k8sClient { Name := placementName, Namespace := placementNamespace }
  rw [updatePlacementStatus_store, hget] at hfirst ⊢
  cases result with
  | error err =>
      simp only at hfirst
      simp [outcomesSince, Store.callsSince, hgetCalls] at hfirst
  | ok read =>
      simp only at hfirst ⊢
      obtain ⟨failure, afterPatch, hpatch, hpatchCalls⟩ :=
        Store.Patch_run afterGet (desiredPlacement read placementStatus) read
      rw [hpatch] at hfirst ⊢
      simp only [outcomesSince, Store.callsSince, hpatchCalls, hgetCalls, List.append_assoc,
        List.drop_left, List.singleton_append, List.map_cons, List.map_nil, List.cons.injEq,
        Prod.mk.injEq, true_and, and_true] at hfirst
      exact ⟨read, afterGet, rfl, by rw [hpatch, hfirst.2]⟩

theorem updatePlacementStatus_find_after (k8sClient : Store Placement)
    (placementName placementNamespace : String) (placementStatus : PlacementStatus)
    (hfirst : outcomesSince k8sClient
      (updatePlacementStatus k8sClient placementName placementNamespace placementStatus).2 =
        [(.get, none), (.patch, none)]) :
    ∃ read,
      (updatePlacementStatus k8sClient placementName placementNamespace
        placementStatus).2.find { Name := placementName, Namespace := placementNamespace } =
        some (desiredPlacement read placementStatus) := by
  obtain ⟨read, afterGet, hget, hpatch⟩ :=
    updatePlacementStatus_first k8sClient placementName placementNamespace placementStatus
      hfirst
  obtain ⟨hfind, hobjects, _⟩ := Store.Get_ok _ _ _ _ hget
  have hmap := Store.Patch_none _ _ _ _ hpatch
  rw [hobjects] at hmap
  refine ⟨read, ?_⟩
  rw [Store.find_of_objects_map k8sClient _ _ _ hmap
    (by intro obj; split <;> rfl), hfind]
  simp only [Option.map_some', Option.some.injEq]
  have hkey : objectKey read = objectKey (desiredPlacement read placementStatus) := rfl
  rw [if_pos hkey]
  exact placement_applyStatusPatch_desired read placementStatus

theorem updatePlacementStatus_second (k8sClient : Store Placement)
    (placementName placementNamespace : String) (placementStatus : PlacementStatus)
    (deployed : Placement)
    (hfind : k8sClient.find { Name := placementName, Namespace := placementNamespace } =
      some deployed)
    (hdesired : desiredPlacement deployed placementStatus = deployed) :
    (∀ call ∈ Store.callsSince k8sClient
        (updatePlacementStatus k8sClient placementName placementNamespace placementStatus).2,
      call.verb = .patch → call.submitted = some deployed ∧ call.snapshot = some deployed) ∧
    (updatePlacementStatus k8sClient placementName placementNamespace
      placementStatus).2.objects = k8sClient.objects ∧
    (k8sClient.nextFault.1 = none →
      Store.patchedSince k8sClient
        (updatePlacementStatus k8sClient placementName placementNamespace
          placementStatus).2 = [deployed]) := by
  obtain ⟨result, afterGet, hget, hgetCalls⟩ :=
    Store.Get_run k8sClient { Name := placementName, Namespace := placementNamespace }
  have hgetObjects : afterGet.objects = k8sClient.objects := by
    have := Store.Get_objects k8sClient { Name := placementName, Namespace := placementNamespace }
    rw [hget] at this
    exact this
  rw [updatePlacementStatus_store, hget]
  cases result with
  | error err =>
      refine ⟨?_, hgetObjects, ?_⟩
      · intro call hcall hverb
        simp only [Store.callsSince, hgetCalls, List.drop_left, List.mem_singleton] at hcall
        rw [hcall] at hverb
        exact Verb.noConfusion hverb
      · intro hfault
        have hok := Store.Get_of_find k8sClient _ deployed hfault hfind
        rw [hget] at hok
        exact absurd hok (by simp)
  | ok read =>
      obtain ⟨hfound, _, _⟩ := Store.Get_ok _ _ _ _ hget
      rw [hfind] at hfound
      have hread : read = deployed := (Option.some.inj hfound).symm
      subst hread
      simp only
      rw [hdesired]
      have hcalls := Store.Patch_calls afterGet read read
      refine ⟨?_, ?_, ?_⟩
      · intro call hcall hverb
        simp only [Store.callsSince, hcalls, hgetCalls, List.append_assoc, List.drop_left,
          List.singleton_append, List.mem_cons, List.mem_singleton, List.not_mem_nil,
          or_false] at hcall
        rcases hcall with hcall | hcall
        · rw [hcall] at hverb
          exact Verb.noConfusion hverb
        · rw [hcall]
          exact ⟨rfl, rfl⟩
      · rw [Store.Patch_self_objects afterGet read (placement_applyStatusPatch_self read),
          hgetObjects]
      · intro _
        simp [Store.patchedSince, Store.callsSince, hcalls, hgetCalls]

theorem Store.Create_objects_of_find {α : Type} [Resource α] (store : Store α) (obj found : α)
    (hfind : store.find (objectKey obj) = some found) :
    (store.Create obj).2.objects = store.objects := by
  unfold Store.Create
  rcases store.nextFault with ⟨_ | err, faults⟩
  · simp only [hfind]
    rfl
  · rfl

theorem updatePlacementDecision_store (k8sClient : Store PlacementDecision)
    (aggregatedPlacementDecision : PlacementDecision) :
    (updatePlacementDecision k8sClient aggregatedPlacementDecision).2 =
      match k8sClient.Get { Name := aggregatedPlacementDecision.ObjectMeta.Name,
                            Namespace := aggregatedPlacementDecision.ObjectMeta.Namespace } with
      | (.error err, afterGet) =>
          if err.isNotFound then
            (afterGet.Create (Resource.setResourceVersion aggregatedPlacementDecision "")).2
          else afterGet
      | (.ok read, afterGet) =>
          (afterGet.Patch (desiredPlacementDecision read aggregatedPlacementDecision) read).2 := by
  obtain ⟨result, afterGet, hget, _⟩ :=
    Store.Get_run k8sClient
      { Name := aggregatedPlacementDecision.ObjectMeta.Name,
        Namespace := aggregatedPlacementDecision.ObjectMeta.Namespace }
  rw [hget]
  rcases result with err | read
  · unfold updatePlacementDecision
    rw [hget]
    simp only [createK8sResource]
    by_cases hnf : err.isNotFound = true
    · simp only [hnf, if_true]
      rcases afterGet.Create (Resource.setResourceVersion aggregatedPlacementDecision "") with
        ⟨_ | cerr, afterCreate⟩ <;> rfl
    · have hnf' : err.isNotFound = false := by simpa using hnf
      simp only [hnf', Bool.false_eq_true, if_false]
  · simp only
    exact updatePlacementDecision_store_of_found k8sClient afterGet
      aggregatedPlacementDecision read hget

theorem updatePlacementDecision_first (k8sClient : Store PlacementDecision)
    (aggregatedPlacementDecision : PlacementDecision)
    (hfirst : outcomesSince k8sClient
      (updatePlacementDecision k8sClient aggregatedPlacementDecision).2 =
        [(.get, none), (.patch, none)]) :
    ∃ read afterGet,
      k8sClient.Get { Name := aggregatedPlacementDecision.ObjectMeta.Name,
                      Namespace := aggregatedPlacementDecision.ObjectMeta.Namespace } =
        (.ok read, afterGet) ∧
      afterGet.Patch (desiredPlacementDecision read aggregatedPlacementDecision) read =
        (none, (updatePlacementDecision k8sClient aggregatedPlacementDecision).2) := by
  obtain ⟨result, afterGet, hget, hgetCalls⟩ :=
    Store.Get_run k8sClient
      { Name := aggregatedPlacementDecision.ObjectMeta.Name,
        Namespace := aggregatedPlacementDecision.ObjectMeta.Namespace }
  rw [updatePlacementDecision_store, hget] at hfirst ⊢
  cases result with
  | error err =>
      simp only at hfirst
      exfalso
      by_cases hnf : err.isNotFound = true
      · simp only [hnf, if_true] at hfirst
        have hcalls := Store.Create_calls afterGet
          (Resource.setResourceVersion aggregatedPlacementDecision "")
        simp [outcomesSince, Store.callsSince, hcalls, hgetCalls, getFailure] at hfirst
      · have hnf' : err.isNotFound = false := by simpa using hnf
        simp only [hnf', Bool.false_eq_true, if_false] at hfirst
        simp [outcomesSince, Store.callsSince, hgetCalls] at hfirst
  | ok read =>
      simp only at hfirst ⊢
      obtain ⟨failure, afterPatch, hpatch, hpatchCalls⟩ :=
        Store.Patch_run afterGet
          (desiredPlacementDecision read aggregatedPlacementDecision) read
      rw [hpatch] at hfirst ⊢
      simp only [outcomesSince, Store.callsSince, hpatchCalls, hgetCalls, List.append_assoc,
        List.drop_left, List.singleton_append, List.map_cons, List.map_nil, List.cons.injEq,
        Prod.mk.injEq, true_and, and_true] at hfirst
      exact ⟨read, afterGet, rfl, by rw [hpatch, hfirst.2]⟩

theorem updatePlacementDecision_find_after (k8sClient : Store PlacementDecision)
    (aggregatedPlacementDecision : PlacementDecision)
    (hfirst : outcomesSince k8sClient
      (updatePlacementDecision k8sClient aggregatedPlacementDecision).2 =
        [(.get, none), (.patch, none)]) :
    ∃ read,
      (updatePlacementDecision k8sClient aggregatedPlacementDecision).2.find
          { Name := aggregatedPlacementDecision.ObjectMeta.Name,
            Namespace := aggregatedPlacementDecision.ObjectMeta.Namespace } =
        some (desiredPlacementDecision read aggregatedPlacementDecision) := by
  obtain ⟨read, afterGet, hget, hpatch⟩ :=
    updatePlacementDecision_first k8sClient aggregatedPlacementDecision hfirst
  obtain ⟨hfind, hobjects, _⟩ := Store.Get_ok _ _ _ _ hget
  have hmap := Store.Patch_none _ _ _ _ hpatch
  rw [hobjects] at hmap
  refine ⟨read, ?_⟩
  rw [Store.find_of_objects_map k8sClient _ _ _ hmap
    (by intro obj; split <;> rfl), hfind]
  simp only [Option.map_some', Option.some.injEq]
  have hkey : objectKey read =
      objectKey (desiredPlacementDecision read aggregatedPlacementDecision) := rfl
  rw [if_pos hkey]
  exact placementDecision_applyStatusPatch_desired read aggregatedPlacementDecision

theorem updatePlacementDecision_second (k8sClient : Store PlacementDecision)
    (aggregatedPlacementDecision deployed : PlacementDecision)
    (hfind : k8sClient.find
        { Name := aggregatedPlacementDecision.ObjectMeta.Name,
          Namespace := aggregatedPlacementDecision.ObjectMeta.Namespace } = some deployed)
    (hdesired : desiredPlacementDecision deployed aggregatedPlacementDecision = deployed) :
    (∀ call ∈ Store.callsSince k8sClient
        (updatePlacementDecision k8sClient aggregatedPlacementDecision).2,
      call.verb = .patch → call.submitted = some deployed ∧ call.snapshot = some deployed) ∧
    (updatePlacementDecision k8sClient aggregatedPlacementDecision).2.objects =
      k8sClient.objects ∧
    (k8sClient.nextFault.1 = none →
      Store.patchedSince k8sClient
        (updatePlacementDecision k8sClient aggregatedPlacementDecision).2 = [deployed]) := by
  obtain ⟨result, afterGet, hget, hgetCalls⟩ :=
    Store.Get_run k8sClient
      { Name := aggregatedPlacementDecision.ObjectMeta.Name,
        Namespace := aggregatedPlacementDecision.ObjectMeta.Namespace }
  have hgetObjects : afterGet.objects = k8sClient.objects := by
    have := Store.Get_objects k8sClient
      { Name := aggregatedPlacementDecision.ObjectMeta.Name,
        Namespace := aggregatedPlacementDecision.ObjectMeta.Namespace }
    rw [hget] at this
    exact this
  rw [updatePlacementDecision_store, hget]
  cases result with
  | error err =>
      simp only
      by_cases hnf : err.isNotFound = true
      · simp only [hnf, if_true]
        have hcalls := Store.Create_calls afterGet
          (Resource.setResourceVersion aggregatedPlacementDecision "")
        have hfindAfter : afterGet.find
            (objectKey (Resource.setResourceVersion aggregatedPlacementDecision "")) =
            some deployed := by
          rw [Store.find_of_objects_eq k8sClient afterGet _ hgetObjects]
          exact hfind
        refine ⟨?_, ?_, ?_⟩
        · intro call hcall hverb
          simp only [Store.callsSince, hcalls, hgetCalls, List.append_assoc, List.drop_left,
            List.singleton_append, List.mem_cons, List.mem_singleton, List.not_mem_nil,
            or_false] at hcall
          rcases hcall with hcall | hcall <;> rw [hcall] at hverb <;>
            exact Verb.noConfusion hverb
        · rw [Store.Create_objects_of_find afterGet _ deployed hfindAfter, hgetObjects]
        · intro hfault
          have hok := Store.Get_of_find k8sClient _ deployed hfault hfind
          rw [hget] at hok
          exact absurd hok (by simp)
      · have hnf' : err.isNotFound = false := by simpa using hnf
        simp only [hnf', Bool.false_eq_true, if_false]
        refine ⟨?_, hgetObjects, ?_⟩
        · intro call hcall hverb
          simp only [Store.callsSince, hgetCalls, List.drop_left, List.mem_singleton] at hcall
          rw [hcall] at hverb
          exact Verb.noConfusion hverb
        · intro hfault
          have hok := Store.Get_of_find k8sClient _ deployed hfault hfind
          rw [hget] at hok
          exact absurd hok (by simp)
  | ok read =>
      obtain ⟨hfound, _, _⟩ := Store.Get_ok _ _ _ _ hget
      rw [hfind] at hfound
      have hread : read = deployed := (Option.some.inj hfound).symm
      subst hread
      simp only
      rw [hdesired]
      have hcalls := Store.Patch_calls afterGet read read
      refine ⟨?_, ?_, ?_⟩
      · intro call hcall hverb
        simp only [Store.callsSince, hcalls, hgetCalls, List.append_assoc, List.drop_left,
          List.singleton_append, List.mem_cons, List.mem_singleton, List.not_mem_nil,
          or_false] at hcall
        rcases hcall with hcall | hcall
        · rw [hcall] at hverb
          exact Verb.noConfusion hverb
        · rw [hcall]
          exact ⟨rfl, rfl⟩
      · rw [Store.Patch_self_objects afterGet read
          (placementDecision_applyStatusPatch_self read), hgetObjects]
      · intro _
        simp [Store.patchedSince, Store.callsSince, hcalls, hgetCalls]

/-- C13: over the resource store as explicit state, with the merge patch the difference
between the submitted object and the snapshot: after `updatePlacementStatus` (respectively
`updatePlacementDecision`) has run once with its get and its status patch both succeeding
on an existing resource, running it again with the same aggregate submits to every status
patch an object equal to its snapshot, so the patch is the empty diff, and leaves the
published objects unchanged; and unless its get is made to fail it does submit one such
patch. -/
theorem update_twice_is_no_op
    (placements : Store Placement) (placementName placementNamespace : String)
    (placementStatus : PlacementStatus)
    (decisions : Store PlacementDecision) (aggregatedPlacementDecision : PlacementDecision)
    (hplacement : outcomesSince placements
      (updatePlacementStatus placements placementName placementNamespace placementStatus).2 =
        [(.get, none), (.patch, none)])
    (hdecision : outcomesSince decisions
      (updatePlacementDecision decisions aggregatedPlacementDecision).2 =
        [(.get, none), (.patch, none)]) :
    ((∀ call ∈ Store.callsSince
          (updatePlacementStatus placements placementName placementNamespace placementStatus).2
          (updatePlacementStatus
            (updatePlacementStatus placements placementName placementNamespace
              placementStatus).2
            placementName placementNamespace placementStatus).2,
        call.verb = .patch → call.isEmptyPatch) ∧
      (updatePlacementStatus
          (updatePlacementStatus placements placementName placementNamespace placementStatus).2
          placementName placementNamespace placementStatus).2.objects =
        (updatePlacementStatus placements placementName placementNamespace
          placementStatus).2.objects ∧
      ((updatePlacementStatus placements placementName placementNamespace
          placementStatus).2.nextFault.1 = none →
        (Store.patchedSince
          (updatePlacementStatus placements placementName placementNamespace placementStatus).2
          (updatePlacementStatus
            (updatePlacementStatus placements placementName placementNamespace
              placementStatus).2
            placementName placementNamespace placementStatus).2).length = 1)) ∧
    ((∀ call ∈ Store.callsSince
          (updatePlacementDecision decisions aggregatedPlacementDecision).2
          (updatePlacementDecision
            (updatePlacementDecision decisions aggregatedPlacementDecision).2
            aggregatedPlacementDecision).2,
        call.verb = .patch → call.isEmptyPatch) ∧
      (updatePlacementDecision
          (updatePlacementDecision decisions aggregatedPlacementDecision).2
          aggregatedPlacementDecision).2.objects =
        (updatePlacementDecision decisions aggregatedPlacementDecision).2.objects ∧
      ((updatePlacementDecision decisions aggregatedPlacementDecision).2.nextFault.1 = none →
        (Store.patchedSince
          (updatePlacementDecision decisions aggregatedPlacementDecision).2
          (updatePlacementDecision
            (updatePlacementDecision decisions aggregatedPlacementDecision).2
            aggregatedPlacementDecision).2).length = 1)) := by
  constructor
  · obtain ⟨read, hfind⟩ := updatePlacementStatus_find_after placements placementName
      placementNamespace placementStatus hplacement
    obtain ⟨hcalls, hobjects, hpatched⟩ :=
      updatePlacementStatus_second _ placementName placementNamespace placementStatus _ hfind
        (desiredPlacement_idem read placementStatus)
    refine ⟨?_, hobjects, ?_⟩
    · intro call hcall hverb
      obtain ⟨hsubmitted, hsnapshot⟩ := hcalls call hcall hverb
      exact ⟨_, hsubmitted, hsnapshot, placement_applyStatusPatch_self _⟩
    · intro hfault
      rw [hpatched hfault]
      rfl
  · obtain ⟨read, hfind⟩ :=
      updatePlacementDecision_find_after decisions aggregatedPlacementDecision hdecision
    obtain ⟨hcalls, hobjects, hpatched⟩ :=
      updatePlacementDecision_second _ aggregatedPlacementDecision _ hfind
        (desiredPlacementDecision_idem read aggregatedPlacementDecision)
    refine ⟨?_, hobjects, ?_⟩
    · intro call hcall hverb
      obtain ⟨hsubmitted, hsnapshot⟩ := hcalls call hcall hverb
      exact ⟨_, hsubmitted, hsnapshot, placementDecision_applyStatusPatch_self _⟩
    · intro hfault
      rw [hpatched hfault]
      rfl

/-- C13, on a published placement that selects 3 clusters reconciled twice with the
aggregate 10, and on a published decision reconciled twice with the decisions of two
clusters: the second run leaves the objects the first run published. -/
theorem update_twice_is_no_op_witness :
    (updatePlacementStatus
        (updatePlacementStatus
          { objects := [{ ObjectMeta := { Name := "p", Namespace := "ns" }
                          Status := { NumberOfSelectedClusters := 3 } }] }
          "p" "ns" { NumberOfSelectedClusters := 10 }).2
        "p" "ns" { NumberOfSelectedClusters := 10 }).2.objects =
      [{ ObjectMeta := { Name := "p", Namespace := "ns" }
         Status := { NumberOfSelectedClusters := 10 } }] ∧
    (updatePlacementDecision
        (updatePlacementDecision
          { objects := [{ ObjectMeta := { Name := "p-decision-1", Namespace := "ns" } }] }
          { ObjectMeta := { Name := "p-decision-1", Namespace := "ns" }
            Status := { Decisions := [⟨"cluster1", ""⟩, ⟨"cluster2", ""⟩] } }).2
        { ObjectMeta := { Name := "p-decision-1", Namespace := "ns" }
          Status := { Decisions := [⟨"cluster1", ""⟩, ⟨"cluster2", ""⟩] } }).2.objects =
      [{ ObjectMeta := { Name := "p-decision-1", Namespace := "ns" }
         Status := { Decisions := [⟨"cluster1", ""⟩, ⟨"cluster2", ""⟩] } }] := by
  have h := update_twice_is_no_op
    { objects := [{ ObjectMeta := { Name := "p", Namespace := "ns" }
                    Status := { NumberOfSelectedClusters := 3 } }] }
    "p" "ns" { NumberOfSelectedClusters := 10 }
    { objects := [{ ObjectMeta := { Name := "p-decision-1", Namespace := "ns" } }] }
    { ObjectMeta := { Name := "p-decision-1", Namespace := "ns" }
      Status := { Decisions := [⟨"cluster1", ""⟩, ⟨"cluster2", ""⟩] } }
    (by decide) (by decide)
  exact ⟨h.1.2.1.trans (by decide), h.2.2.1.trans (by decide)⟩

/-! ## The object submitted to the status patch -/

theorem updatePlacementStatus_patch_calls (k8sClient : Store Placement)
    (placementName placementNamespace : String) (placementStatus : PlacementStatus) :
    ∀ call ∈ Store.callsSince k8sClient
        (updatePlacementStatus k8sClient placementName placementNamespace placementStatus).2,
      call.verb = .patch →
        ∃ read,
          k8sClient.find { Name := placementName, Namespace := placementNamespace } =
            some read ∧
          call.snapshot = some read ∧
          call.submitted = some (desiredPlacement read placementStatus) := by
  obtain ⟨result, afterGet, hget, hgetCalls⟩ :=
    Store.Get_run k8sClient { Name := placementName, Namespace := placementNamespace }
  rw [updatePlacementStatus_store, hget]
  intro call hcall hverb
  cases result with
  | error err =>
      simp only [Store.callsSince, hgetCalls, List.drop_left, List.mem_singleton] at hcall
      rw [hcall] at hverb
      exact Verb.noConfusion hverb
  | ok read =>
      obtain ⟨hfound, _, _⟩ := Store.Get_ok _ _ _ _ hget
      have hcalls := Store.Patch_calls afterGet (desiredPlacement read placementStatus) read
      simp only [Store.callsSince, hcalls, hgetCalls, List.append_assoc, List.drop_left,
        List.singleton_append, List.mem_cons, List.mem_singleton, List.not_mem_nil,
        or_false] at hcall
      rcases hcall with hcall | hcall
      · rw [hcall] at hverb
        exact Verb.noConfusion hverb
      · rw [hcall]
        exact ⟨read, hfound, rfl, rfl⟩

theorem updatePlacementDecision_patch_calls (k8sClient : Store PlacementDecision)
    (aggregatedPlacementDecision : PlacementDecision) :
    ∀ call ∈ Store.callsSince k8sClient
        (updatePlacementDecision k8sClient aggregatedPlacementDecision).2,
      call.verb = .patch →
        ∃ read,
          k8sClient.find
              { Name := aggregatedPlacementDecision.ObjectMeta.Name,
                Namespace := aggregatedPlacementDecision.ObjectMeta.Namespace } = some read ∧
          call.snapshot = some read ∧
          call.submitted =
            some (desiredPlacementDecision read aggregatedPlacementDecision) := by
  obtain ⟨result, afterGet, hget, hgetCalls⟩ :=
    Store.Get_run k8sClient
      { Name := aggregatedPlacementDecision.ObjectMeta.Name,
        Namespace := aggregatedPlacementDecision.ObjectMeta.Namespace }
  rw [updatePlacementDecision_store, hget]
  intro call hcall hverb
  cases result with
  | error err =>
      simp only at hcall
      by_cases hnf : err.isNotFound = true
      · simp only [hnf, if_true] at hcall
        have hcalls := Store.Create_calls afterGet
          (Resource.setResourceVersion aggregatedPlacementDecision "")
        simp only [Store.callsSince, hcalls, hgetCalls, List.append_assoc, List.drop_left,
          List.singleton_append, List.mem_cons, List.mem_singleton, List.not_mem_nil,
          or_false] at hcall
        rcases hcall with hcall | hcall <;> rw [hcall] at hverb <;>
          exact Verb.noConfusion hverb
      · have hnf' : err.isNotFound = false := by simpa using hnf
        simp only [hnf', Bool.false_eq_true, if_false] at hcall
        simp only [Store.callsSince, hgetCalls, List.drop_left, List.mem_singleton] at hcall
        rw [hcall] at hverb
        exact Verb.noConfusion hverb
  | ok read =>
      obtain ⟨hfound, _, _⟩ := Store.Get_ok _ _ _ _ hget
      have hcalls := Store.Patch_calls afterGet
        (desiredPlacementDecision read aggregatedPlacementDecision) read
      simp only [Store.callsSince, hcalls, hgetCalls, List.append_assoc, List.drop_left,
        List.singleton_append, List.mem_cons, List.mem_singleton, List.not_mem_nil,
        or_false] at hcall
      rcases hcall with hcall | hcall
      · rw [hcall] at hverb
        exact Verb.noConfusion hverb
      · rw [hcall]
        exact ⟨read, hfound, rfl, rfl⟩

/-- The three updaters that clone: the object `updatePlacementStatus`,
`updatePlacementDecision` and `handlePolicy` submit to a status patch is the resource read,
the snapshot of the patch, with only `Status.NumberOfSelectedClusters`, respectively
`Status.Decisions`, respectively `Status.Status` and `Status.ComplianceState` overwritten;
its metadata, name and namespace included, is that of the resource read. -/
theorem patch_submits_clone
    (placements : Store Placement) (placementName placementNamespace : String)
    (placementStatus : PlacementStatus)
    (decisions : Store PlacementDecision) (aggregatedPlacementDecision : PlacementDecision)
    (policies : Store Policy) (policy : Policy) (rows : List (Except DBError ComplianceRow)) :
    (∀ call ∈ Store.callsSince placements
        (updatePlacementStatus placements placementName placementNamespace placementStatus).2,
      call.verb = .patch →
        ∃ read submitted,
          placements.find { Name := placementName, Namespace := placementNamespace } =
            some read ∧
          call.snapshot = some read ∧ call.submitted = some submitted ∧
          submitted =
            { read with Status := { read.Status with
                NumberOfSelectedClusters := placementStatus.NumberOfSelectedClusters } } ∧
          submitted.ObjectMeta = read.ObjectMeta) ∧
    (∀ call ∈ Store.callsSince decisions
        (updatePlacementDecision decisions aggregatedPlacementDecision).2,
      call.verb = .patch →
        ∃ read submitted,
          decisions.find
              { Name := aggregatedPlacementDecision.ObjectMeta.Name,
                Namespace := aggregatedPlacementDecision.ObjectMeta.Namespace } = some read ∧
          call.snapshot = some read ∧ call.submitted = some submitted ∧
          submitted =
            { read with Status := { read.Status with
                Decisions := aggregatedPlacementDecision.Status.Decisions } } ∧
          submitted.ObjectMeta = read.ObjectMeta) ∧
    (∃ submitted failure,
      Store.callsSince policies (handlePolicy policies policy rows) =
        [⟨.patch, objectKey policy, some submitted, some policy, failure⟩] ∧
      submitted.ObjectMeta = policy.ObjectMeta ∧ submitted.Spec = policy.Spec ∧
      submitted.Status.Placement = policy.Status.Placement) := by
  refine ⟨?_, ?_, ?_⟩
  · intro call hcall hverb
    obtain ⟨read, hfind, hsnapshot, hsubmitted⟩ :=
      updatePlacementStatus_patch_calls placements placementName placementNamespace
        placementStatus call hcall hverb
    exact ⟨read, _, hfind, hsnapshot, hsubmitted, rfl, rfl⟩
  · intro call hcall hverb
    obtain ⟨read, hfind, hsnapshot, hsubmitted⟩ :=
      updatePlacementDecision_patch_calls decisions aggregatedPlacementDecision call hcall
        hverb
    exact ⟨read, _, hfind, hsnapshot, hsubmitted, rfl, rfl⟩
  · refine ⟨handlePolicyInstance policy rows, _,
      Store.callsSince_append policies (handlePolicy policies policy rows) _
        (Store.Patch_calls policies (handlePolicyInstance policy rows) policy), ?_, ?_, ?_⟩
    · unfold handlePolicyInstance
      simp only
    · unfold handlePolicyInstance
      simp only
    · unfold handlePolicyInstance
      simp only
      split <;> [rfl; (split <;> rfl)]

/-- C12 on `updateSubscriptionReport`, at a published report: with the report `ns/s`
published and one row that reports `deployed="2"`, the object submitted to the status patch
is the aggregate itself, with an empty name, an empty namespace and none of the metadata of
the report read; no such object is published, the not-found of the patch is taken for
success, and the published report keeps its old summary. -/
theorem updateSubscriptionReport_submits_aggregate :
    (Store.callsSince
        { objects := [{ ObjectMeta := { Name := "s", Namespace := "ns", UID := "u1"
                                        Labels := [(AnnotationHosting, "ns.s")] }
                        Summary := { Deployed := "1", InProgress := "0", Failed := "0"
                                     PropagationFailed := "0", Clusters := "1" } }] }
        (handleSubscriptionReport
          { objects := [{ ObjectMeta := { Name := "s", Namespace := "ns", UID := "u1"
                                          Labels := [(AnnotationHosting, "ns.s")] }
                          Summary := { Deployed := "1", InProgress := "0", Failed := "0"
                                       PropagationFailed := "0", Clusters := "1" } }] }
          (.ok [.ok { ObjectMeta := { Name := "s", Namespace := "ns" }
                      Summary := { Deployed := "2", Clusters := "2" } }])
          "s" "ns")).map
        (fun call => (call.verb, call.key, call.submitted.map (fun obj => obj.ObjectMeta),
          call.snapshot.map (fun obj => obj.ObjectMeta.Name), call.failure)) =
      [(.get, ⟨"s", "ns"⟩, none, none, none),
       (.patch, ⟨"", ""⟩, some {}, some "s", some .notFound)] ∧
    (handleSubscriptionReport
        { objects := [{ ObjectMeta := { Name := "s", Namespace := "ns", UID := "u1"
                                        Labels := [(AnnotationHosting, "ns.s")] }
                        Summary := { Deployed := "1", InProgress := "0", Failed := "0"
                                     PropagationFailed := "0", Clusters := "1" } }] }
        (.ok [.ok { ObjectMeta := { Name := "s", Namespace := "ns" }
                    Summary := { Deployed := "2", Clusters := "2" } }])
        "s" "ns").objects =
      [{ ObjectMeta := { Name := "s", Namespace := "ns", UID := "u1"
                         Labels := [(AnnotationHosting, "ns.s")] }
         Summary := { Deployed := "1", InProgress := "0", Failed := "0"
                      PropagationFailed := "0", Clusters := "1" } }] := by
  constructor
  · rfl
  · decide

end DBSyncers
